import Mathlib

/-!
Verification development for the data-acquisition layer of the repository
(two provider clients: `src/tools/api.py`, provider 聚合数据/JUHE, modelled in
namespace `Api`; and `src/tools/api_east.py`, providers 新浪/东方财富 and
financialdatasets.ai, modelled in namespace `ApiEast`).

Modelling conventions:
- Dates are ISO-8601 "YYYY-MM-DD" strings in the source and compare
  lexicographically, which coincides with chronological order; they are
  modelled as `Nat`.  The source's `.split('T')[0]` on a date without a time
  component is the identity and is dropped.
- Python float fields are modelled as `ℚ`; a numeric value is "falsy" exactly
  when it is 0, `None` is falsy, a string is falsy exactly when empty.
- The process cache (`data.cache`, not under `src/`) is modelled from the
  spec, section 4.1: per-kind get/set keyed by ticker, each set replacing the
  whole list.  Records are serialized with `model_dump` and re-validated with
  `Model(**fields)` on a hit; that round trip is the identity on fields, so
  the cache stores typed records directly.
- Each network-touching function takes the would-be provider response(s) (or,
  for the paginated endpoints, a response function of the moving cursor) as an
  explicit argument and reports how many / which requests it actually issued,
  so "no network call" is expressible.
-/

/-- Dates: ISO date strings under lexicographic order, modelled as `Nat`. -/
abbrev Date := Nat

/-- Python truthiness of `os.environ.get(...)`: `None` and `""` are falsy. -/
def pyTruthy : Option String → Bool
  | none => false
  | some s => !s.isEmpty

/-- Python truthiness of an optional numeric value: `None`, `0` are falsy. -/
def pyTruthyQ : Option ℚ → Bool
  | none => false
  | some q => decide (q ≠ 0)

/-- The list is sorted descending under the key `k` (Python
`sort(key=k, reverse=True)` post-condition). -/
def SortedDescOn (k : α → Date) (l : List α) : Prop :=
  List.Pairwise (fun a b => k b ≤ k a) l

instance (k : α → Date) (l : List α) : Decidable (SortedDescOn k l) :=
  inferInstanceAs (Decidable (List.Pairwise _ l))

instance (k : α → Date) : IsTotal α (fun a b => k b ≤ k a) :=
  ⟨fun a b => (Nat.le_total (k b) (k a))⟩

instance (k : α → Date) : IsTrans α (fun a b => k b ≤ k a) :=
  ⟨fun _ _ _ hab hbc => Nat.le_trans hbc hab⟩

/-- Python's stable `list.sort(key=k, reverse=True)`: the unique permutation
that is descending on `k` and keeps the original order of equal keys; any
stable algorithm computes it, here insertion sort. -/
def sortDescBy (k : α → Date) (l : List α) : List α :=
  l.insertionSort (fun a b => k b ≤ k a)

/-- Price record (`data.models.Price`, not under `src/`).  Modelled from the
spec, section 3; `open` is a Lean keyword, hence `open_`. -/
structure Price where
  ticker : String
  time : Date
  open_ : ℚ
  high : ℚ
  low : ℚ
  close : ℚ
  volume : ℚ
  adj_close : Option ℚ := none
deriving DecidableEq

/-- FinancialMetrics record. Modelled from the spec, section 3: a sparse
record; only the fields the two provider files touch are kept. -/
structure FinancialMetrics where
  ticker : String
  report_period : Date
  market_cap : Option ℚ := none
  revenue : Option ℚ := none
  net_income : Option ℚ := none
  eps : Option ℚ := none
deriving DecidableEq

/-- InsiderTrade record. Modelled from the spec, section 3. -/
structure InsiderTrade where
  ticker : String
  filing_date : Date
  transaction_date : Option Date := none
  insider_name : Option String := none
  insider_title : Option String := none
  transaction_type : String := ""
  shares : ℚ := 0
  price : Option ℚ := none
  value : Option ℚ := none
  shares_owned : Option ℚ := none
deriving DecidableEq

/-- CompanyNews record. Modelled from the spec, section 3. -/
structure CompanyNews where
  ticker : String
  date : Date
  title : String := ""
  url : String := ""
  source : String := ""
  summary : String := ""
deriving DecidableEq

/-- The effective date of an insider trade, `x.transaction_date or
x.filing_date` (an unset transaction date falls back to the filing date). -/
def effective_date (t : InsiderTrade) : Date :=
  t.transaction_date.getD t.filing_date

/-- Modelled from the spec: the cache adapter (`data.cache`, section 4.1).
Per-kind stores keyed by ticker; an absent key reads as the empty list (both
are falsy in the Python `if cached_data :=` test). -/
structure Cache where
  prices : String → List Price
  financial_metrics : String → List FinancialMetrics
  insider_trades : String → List InsiderTrade
  company_news : String → List CompanyNews

/-- Modelled from the spec: `set_prices` replaces the whole cached list for
the ticker, leaving every other ticker and kind untouched. -/
def Cache.set_prices (c : Cache) (t : String) (l : List Price) : Cache :=
  { c with prices := Function.update c.prices t l }

/-- Modelled from the spec: `set_financial_metrics`, replace-whole-list. -/
def Cache.set_financial_metrics (c : Cache) (t : String) (l : List FinancialMetrics) : Cache :=
  { c with financial_metrics := Function.update c.financial_metrics t l }

/-- Modelled from the spec: `set_insider_trades`, replace-whole-list. -/
def Cache.set_insider_trades (c : Cache) (t : String) (l : List InsiderTrade) : Cache :=
  { c with insider_trades := Function.update c.insider_trades t l }

/-- Modelled from the spec: `set_company_news`, replace-whole-list. -/
def Cache.set_company_news (c : Cache) (t : String) (l : List CompanyNews) : Cache :=
  { c with company_news := Function.update c.company_news t l }

/-- The empty cache (fresh process). -/
def Cache.empty : Cache :=
  { prices := fun _ => [], financial_metrics := fun _ => [],
    insider_trades := fun _ => [], company_news := fun _ => [] }

/-- Process environment: the two API keys the source reads. -/
structure Env where
  JUHE_API_KEY : Option String := none
  FINANCIAL_DATASETS_API_KEY : Option String := none

/-- Errors raised by the fetchers (all `raise Exception(...)` in the source;
the constructors keep the data interpolated into the message). -/
inductive ApiError where
  /-- Missing-credential message, e.g. "请在环境变量中设置 JUHE_API_KEY". -/
  | missingKey (msg : String)
  /-- Non-2xx rejection: f-string of ticker, status code and body text. -/
  | transport (ticker : String) (status : Nat) (text : String)
  /-- Provider-reported error (2xx with nonzero `error_code`): its reason. -/
  | apiErr (reason : String)
  /-- `requests.Response.raise_for_status` (carries the status, not the body). -/
  | httpStatus (status : Nat)
  /-- An api_east wrapper `Exception(f"{msg}: {ticker} - {str(e)}")`. -/
  | wrapped (msg : String) (ticker : String) (inner : ApiError)
  /-- `financial_metrics[0]` on an empty list. -/
  | indexError
  /-- pandas `df[col]` on a frame without that column. -/
  | keyError (col : String)
deriving DecidableEq

/-- Outcome of a single-request fetcher: the returned value or raised error,
the cache after the call, and how many HTTP requests were issued. -/
structure FetchOut (α : Type) where
  result : Except ApiError (List α)
  cache : Cache
  nreq : Nat

/-- The cache-hit filter of `get_prices` (both files, identical code):
`start_date <= price["time"] <= end_date`. -/
def priceInRange (start_date end_date : Date) (p : Price) : Bool :=
  decide (start_date ≤ p.time) && decide (p.time ≤ end_date)

/-- The filtered cached prices a cache hit would return. -/
def pricesView (cache : Cache) (ticker : String) (start_date end_date : Date) : List Price :=
  (cache.prices ticker).filter (priceInRange start_date end_date)

/-- The filtered-and-sorted cached metrics of the `get_financial_metrics`
cache-hit path (both files): keep `report_period <= end_date`, sort
descending by report period (truncation to `limit` happens at the return). -/
def metricsView (cache : Cache) (ticker : String) (end_date : Date) : List FinancialMetrics :=
  sortDescBy (fun m => m.report_period)
    ((cache.financial_metrics ticker).filter (fun m => decide (m.report_period ≤ end_date)))

/-- The cache-hit filter of `get_insider_trades` (both files):
`(start_date is None or eff >= start_date) and eff <= end_date` on the
effective date. -/
def tradeInRange (start_date : Option Date) (end_date : Date) (t : InsiderTrade) : Bool :=
  (match start_date with
   | none => true
   | some sd => decide (sd ≤ effective_date t)) && decide (effective_date t ≤ end_date)

/-- The filtered-and-sorted cached trades of the cache-hit path. -/
def tradesView (cache : Cache) (ticker : String) (start_date : Option Date)
    (end_date : Date) : List InsiderTrade :=
  sortDescBy effective_date
    ((cache.insider_trades ticker).filter (tradeInRange start_date end_date))

/-- The cache-hit filter of `get_company_news` (both files) on `news["date"]`. -/
def newsInRange (start_date : Option Date) (end_date : Date) (n : CompanyNews) : Bool :=
  (match start_date with
   | none => true
   | some sd => decide (sd ≤ n.date)) && decide (n.date ≤ end_date)

/-- The filtered-and-sorted cached news of the cache-hit path. -/
def newsView (cache : Cache) (ticker : String) (start_date : Option Date)
    (end_date : Date) : List CompanyNews :=
  sortDescBy (fun n => n.date)
    ((cache.company_news ticker).filter (newsInRange start_date end_date))

/-- A pandas cell value, as produced from our records. -/
inductive PdVal where
  | num (q : ℚ)
  | str (s : String)
  | date (d : Date)
  | null
deriving DecidableEq

/-- `Price.model_dump()`: the plain field mapping of a Price record. -/
def Price.model_dump (p : Price) : List (String × PdVal) :=
  [("ticker", .str p.ticker), ("time", .date p.time), ("open", .num p.open_),
   ("high", .num p.high), ("low", .num p.low), ("close", .num p.close),
   ("volume", .num p.volume),
   ("adj_close", match p.adj_close with | some q => .num q | none => .null)]

/-- pandas `pd.DataFrame(records)` column inference: the union of the
records' keys in first-seen order; an empty record list yields no columns. -/
def dfColumns (records : List (List (String × PdVal))) : List String :=
  records.foldl (fun cs r => cs ++ ((r.map Prod.fst).filter (fun k => !cs.contains k))) []

/-- A time-indexed pandas frame as `prices_to_df` builds it. -/
structure DataFrame where
  cols : List String
  index : List Date
  rows : List (List (String × PdVal))
deriving DecidableEq

/-- Stable ascending insertion by the date component (pandas `sort_index`). -/
def insertAscByDate (x : Date × List (String × PdVal)) :
    List (Date × List (String × PdVal)) → List (Date × List (String × PdVal))
  | [] => [x]
  | y :: ys => if y.1 ≤ x.1 then y :: insertAscByDate x ys else x :: y :: ys

/-- Sort the indexed rows ascending by date (pandas `sort_index`). -/
def sortIndexAsc : List (Date × List (String × PdVal)) → List (Date × List (String × PdVal))
  | [] => []
  | x :: xs => insertAscByDate x (sortIndexAsc xs)

/-- Look up the "time" cell of a dumped record (always a `.date` for a
dumped Price). -/
def rowTime (r : List (String × PdVal)) : Date :=
  match r.lookup "time" with
  | some (.date d) => d
  | _ => 0

/-- Shallow embedding of `prices_to_df` (identical in both files).
`pd.DataFrame` of the dumped records; `df["Date"] = pd.to_datetime(df["time"])`
raises a KeyError when the "time" column does not exist, which is exactly the
empty-input case; then index by date, coerce numerics (already numeric here)
and sort the index ascending. -/
def prices_to_df (prices : List Price) : Except ApiError DataFrame :=
  let records := prices.map Price.model_dump
  let cols := dfColumns records
  if "time" ∈ cols then
    let indexed := sortIndexAsc (records.map (fun r => (rowTime r, r)))
    .ok { cols := cols ++ ["Date"], index := indexed.map Prod.fst,
          rows := indexed.map Prod.snd }
  else
    .error (.keyError "time")

namespace Api

/-- Raw entry of the JUHE 股票历史行情 payload (`result.data` item); the
source feeds each field through `float(...)`. -/
structure RawJuhePrice where
  date : Date
  open_ : ℚ
  high : ℚ
  low : ℚ
  close : ℚ
  volume : ℚ
deriving DecidableEq

/-- Raw entry of the JUHE 财务报表 payload: `date` and the optional
`total_market_cap` (read with default 0). -/
structure RawJuheFin where
  date : Date
  total_market_cap : Option ℚ
deriving DecidableEq

/-- Raw entry of the JUHE 高管持股变动 payload. -/
structure RawJuheExec where
  date : Date
  name : Option String
  position : Option String
  change_type : Option String
  change_shares : Option ℚ
  price : Option ℚ
  change_amount : Option ℚ
  total_shares : Option ℚ
deriving DecidableEq

/-- Raw entry of the JUHE 股票新闻 payload. -/
structure RawJuheNews where
  date : Date
  title : Option String
  url : Option String
  source : Option String
  content : Option String
deriving DecidableEq

/-- A JUHE HTTP response: transport status and body text, plus the parsed
JSON fields the source reads (`error_code`, `reason`, `result.data`). -/
structure JuheResp (α : Type) where
  status_code : Nat
  text : String
  error_code : Int
  reason : String
  data : List α

/-- Shallow embedding of `api.get_prices`: cache check, `JUHE_API_KEY`
fail-fast, one GET, `error_code` check, field mapping, write-back iff
non-empty.  `resp` is the response the single request would yield. -/
def get_prices (env : Env) (resp : JuheResp RawJuhePrice) (cache : Cache)
    (ticker : String) (start_date end_date : Date) : FetchOut Price :=
  let cached_data := cache.prices ticker
  let filtered_data := pricesView cache ticker start_date end_date
  if cached_data ≠ [] ∧ filtered_data ≠ [] then
    { result := .ok filtered_data, cache := cache, nreq := 0 }
  else if pyTruthy env.JUHE_API_KEY = false then
    { result := .error (.missingKey "请在环境变量中设置 JUHE_API_KEY"),
      cache := cache, nreq := 0 }
  else if resp.status_code ≠ 200 then
    { result := .error (.transport ticker resp.status_code resp.text),
      cache := cache, nreq := 1 }
  else if resp.error_code ≠ 0 then
    { result := .error (.apiErr resp.reason), cache := cache, nreq := 1 }
  else
    let prices := resp.data.map (fun item =>
      { time := item.date, open_ := item.open_, high := item.high,
        low := item.low, close := item.close, volume := item.volume,
        ticker := ticker : Price })
    if prices = [] then
      { result := .ok [], cache := cache, nreq := 1 }
    else
      { result := .ok prices, cache := cache.set_prices ticker prices, nreq := 1 }

/-- Shallow embedding of `api.get_financial_metrics`: cache hit returns the
date-filtered, descending-sorted list truncated to `limit`; the network path
maps `data[:limit]` (market cap read with default 0) and writes back iff
non-empty. -/
def get_financial_metrics (env : Env) (resp : JuheResp RawJuheFin) (cache : Cache)
    (ticker : String) (end_date : Date) (limit : Nat := 10) : FetchOut FinancialMetrics :=
  let cached_data := cache.financial_metrics ticker
  let filtered_data := metricsView cache ticker end_date
  if cached_data ≠ [] ∧ filtered_data ≠ [] then
    { result := .ok (filtered_data.take limit), cache := cache, nreq := 0 }
  else if pyTruthy env.JUHE_API_KEY = false then
    { result := .error (.missingKey "请在环境变量中设置 JUHE_API_KEY"),
      cache := cache, nreq := 0 }
  else if resp.status_code ≠ 200 then
    { result := .error (.transport ticker resp.status_code resp.text),
      cache := cache, nreq := 1 }
  else if resp.error_code ≠ 0 then
    { result := .error (.apiErr resp.reason), cache := cache, nreq := 1 }
  else
    let financial_metrics := (resp.data.take limit).map (fun item =>
      { ticker := ticker, report_period := item.date,
        market_cap := some (item.total_market_cap.getD 0) : FinancialMetrics })
    if financial_metrics = [] then
      { result := .ok [], cache := cache, nreq := 1 }
    else
      { result := .ok financial_metrics,
        cache := cache.set_financial_metrics ticker financial_metrics, nreq := 1 }

/-- The in-loop date filter of `api.get_insider_trades`'s network path: skip
when `(start_date and filing_date < start_date) or filing_date > end_date`. -/
def execKeep (start_date : Option Date) (end_date : Date) (item : RawJuheExec) : Bool :=
  !((match start_date with
     | none => false
     | some sd => decide (item.date < sd)) || decide (end_date < item.date))

/-- Field mapping of one 高管持股变动 item into an InsiderTrade; the payload
date serves as both filing and transaction date; `x if item.get(k) else None`
reads as: kept only when truthy. -/
def execToTrade (ticker : String) (item : RawJuheExec) : InsiderTrade :=
  { ticker := ticker
    filing_date := item.date
    transaction_date := some item.date
    insider_name := item.name
    insider_title := item.position
    transaction_type := item.change_type.getD ""
    shares := item.change_shares.getD 0
    price := if pyTruthyQ item.price then item.price else none
    value := if pyTruthyQ item.change_amount then item.change_amount else none
    shares_owned := if pyTruthyQ item.total_shares then item.total_shares else none }

/-- Shallow embedding of `api.get_insider_trades`: cache hit returns the
date-filtered descending-sorted list (no truncation); the network path
filters during mapping, sorts descending, truncates to `limit`, writes back
iff non-empty. -/
def get_insider_trades (env : Env) (resp : JuheResp RawJuheExec) (cache : Cache)
    (ticker : String) (end_date : Date) (start_date : Option Date := none)
    (limit : Nat := 1000) : FetchOut InsiderTrade :=
  let cached_data := cache.insider_trades ticker
  let filtered_data := tradesView cache ticker start_date end_date
  if cached_data ≠ [] ∧ filtered_data ≠ [] then
    { result := .ok filtered_data, cache := cache, nreq := 0 }
  else if pyTruthy env.JUHE_API_KEY = false then
    { result := .error (.missingKey "请在环境变量中设置 JUHE_API_KEY"),
      cache := cache, nreq := 0 }
  else if resp.status_code ≠ 200 then
    { result := .error (.transport ticker resp.status_code resp.text),
      cache := cache, nreq := 1 }
  else if resp.error_code ≠ 0 then
    { result := .error (.apiErr resp.reason), cache := cache, nreq := 1 }
  else
    let all_trades := (resp.data.filter (execKeep start_date end_date)).map (execToTrade ticker)
    if all_trades = [] then
      { result := .ok [], cache := cache, nreq := 1 }
    else
      let all_trades := (sortDescBy effective_date all_trades).take limit
      { result := .ok all_trades,
        cache := cache.set_insider_trades ticker all_trades, nreq := 1 }

/-- The in-loop date filter of `api.get_company_news`'s network path. -/
def juheNewsKeep (start_date : Option Date) (end_date : Date) (item : RawJuheNews) : Bool :=
  !((match start_date with
     | none => false
     | some sd => decide (item.date < sd)) || decide (end_date < item.date))

/-- Field mapping of one 股票新闻 item (content becomes the summary). -/
def juheNewsToNews (ticker : String) (item : RawJuheNews) : CompanyNews :=
  { ticker := ticker, date := item.date, title := item.title.getD "",
    url := item.url.getD "", source := item.source.getD "",
    summary := item.content.getD "" }

/-- Shallow embedding of `api.get_company_news`, same shape as the insider
trades fetcher with `news["date"]` as the key. -/
def get_company_news (env : Env) (resp : JuheResp RawJuheNews) (cache : Cache)
    (ticker : String) (end_date : Date) (start_date : Option Date := none)
    (limit : Nat := 1000) : FetchOut CompanyNews :=
  let cached_data := cache.company_news ticker
  let filtered_data := newsView cache ticker start_date end_date
  if cached_data ≠ [] ∧ filtered_data ≠ [] then
    { result := .ok filtered_data, cache := cache, nreq := 0 }
  else if pyTruthy env.JUHE_API_KEY = false then
    { result := .error (.missingKey "请在环境变量中设置 JUHE_API_KEY"),
      cache := cache, nreq := 0 }
  else if resp.status_code ≠ 200 then
    { result := .error (.transport ticker resp.status_code resp.text),
      cache := cache, nreq := 1 }
  else if resp.error_code ≠ 0 then
    { result := .error (.apiErr resp.reason), cache := cache, nreq := 1 }
  else
    let all_news := (resp.data.filter (juheNewsKeep start_date end_date)).map (juheNewsToNews ticker)
    if all_news = [] then
      { result := .ok [], cache := cache, nreq := 1 }
    else
      let all_news := (sortDescBy (fun n => n.date) all_news).take limit
      { result := .ok all_news,
        cache := cache.set_company_news ticker all_news, nreq := 1 }

/-- Shallow embedding of `api.get_market_cap`: the latest metrics record's
market cap, `None` when falsy; `financial_metrics[0]` on an empty fetch is an
IndexError, and an error of the fetch itself propagates. -/
def get_market_cap (env : Env) (resp : JuheResp RawJuheFin) (cache : Cache)
    (ticker : String) (end_date : Date) : Except ApiError (Option ℚ) × Cache :=
  let out := get_financial_metrics env resp cache ticker end_date
  match out.result with
  | .error e => (.error e, out.cache)
  | .ok [] => (.error .indexError, out.cache)
  | .ok (m :: _) =>
    if pyTruthyQ m.market_cap = false then (.ok none, out.cache)
    else (.ok m.market_cap, out.cache)

/-- Shallow embedding of `api.get_price_data`: fetch prices, then convert
with `prices_to_df` (errors of either step propagate). -/
def get_price_data (env : Env) (resp : JuheResp RawJuhePrice) (cache : Cache)
    (ticker : String) (start_date end_date : Date) :
    Except ApiError DataFrame × Cache × Nat :=
  let out := get_prices env resp cache ticker start_date end_date
  match out.result with
  | .error e => (.error e, out.cache, out.nreq)
  | .ok prices => (prices_to_df prices, out.cache, out.nreq)

end Api

namespace ApiEast

/-- Parsed 新浪 hisdata item (the source maps the same field names as the
JUHE price item and additionally copies `close` into `adj_close`). -/
structure RawSinaPrice where
  date : Date
  open_ : ℚ
  high : ℚ
  low : ℚ
  close : ℚ
  volume : ℚ
deriving DecidableEq

/-- A 新浪 response: transport status plus the parsed item list. -/
structure SinaResp where
  status_code : Nat
  data : List RawSinaPrice

/-- One parsed kline entry of the 东方财富 fallback.  `ok7` records whether
`len(parts) >= 7` held (shorter lines are skipped); the comma-separated
order is date, open, close, high, low, volume. -/
structure RawKline where
  ok7 : Bool
  date : Date
  open_ : ℚ
  close : ℚ
  high : ℚ
  low : ℚ
  volume : ℚ
deriving DecidableEq

/-- A 东方财富 kline response. -/
structure EastKlineResp where
  status_code : Nat
  klines : List RawKline

/-- Shallow embedding of `api_east.get_prices`: cache check, then the 新浪
request; a failure there (modelled: non-2xx, surfaced by `raise_for_status`)
is swallowed and the 东方财富 fallback is tried; only the fallback's failure
is raised, wrapped as `获取价格数据失败: {ticker} - {str(e)}`.  A successful
but empty payload returns empty without writing the cache and without trying
the fallback.  No API key is read anywhere on this path. -/
def get_prices (sina : SinaResp) (east : EastKlineResp) (cache : Cache)
    (ticker : String) (start_date end_date : Date) : FetchOut Price :=
  let cached_data := cache.prices ticker
  let filtered_data := pricesView cache ticker start_date end_date
  if cached_data ≠ [] ∧ filtered_data ≠ [] then
    { result := .ok filtered_data, cache := cache, nreq := 0 }
  else if 400 ≤ sina.status_code then
    if 400 ≤ east.status_code then
      { result := .error (.wrapped "获取价格数据失败" ticker (.httpStatus east.status_code)),
        cache := cache, nreq := 2 }
    else
      let prices := (east.klines.filter (fun kl => kl.ok7)).map (fun kl =>
        { ticker := ticker, time := kl.date, open_ := kl.open_, close := kl.close,
          high := kl.high, low := kl.low, volume := kl.volume,
          adj_close := some kl.close : Price })
      if prices ≠ [] then
        { result := .ok prices, cache := cache.set_prices ticker prices, nreq := 2 }
      else
        { result := .ok prices, cache := cache, nreq := 2 }
  else
    let prices := sina.data.map (fun item =>
      { ticker := ticker, time := item.date, open_ := item.open_, high := item.high,
        low := item.low, close := item.close, volume := item.volume,
        adj_close := some item.close : Price })
    if prices ≠ [] then
      { result := .ok prices, cache := cache.set_prices ticker prices, nreq := 1 }
    else
      { result := .ok prices, cache := cache, nreq := 1 }

/-- Raw 东方财富 financial item, keyed as in the provider payload. -/
structure EastFinItem where
  REPORT_DATE : Date
  TOTAL_OPERATE_INCOME : Option ℚ
  PARENT_NETPROFIT : Option ℚ
  BASIC_EPS : Option ℚ
deriving DecidableEq

/-- A 东方财富 financial-analysis response. -/
structure EastFinResp where
  status_code : Nat
  data : List EastFinItem

/-- Shallow embedding of `api_east.get_financial_metrics`: cache hit as in
`api.py`; network path maps `data[:limit]` (market cap left unset), writes
back iff non-empty; a transport failure is wrapped as
`获取财务指标失败: {ticker} - {str(e)}`.  No API key is read. -/
def get_financial_metrics (resp : EastFinResp) (cache : Cache)
    (ticker : String) (end_date : Date) (limit : Nat := 10) : FetchOut FinancialMetrics :=
  let cached_data := cache.financial_metrics ticker
  let filtered_data := metricsView cache ticker end_date
  if cached_data ≠ [] ∧ filtered_data ≠ [] then
    { result := .ok (filtered_data.take limit), cache := cache, nreq := 0 }
  else if 400 ≤ resp.status_code then
    { result := .error (.wrapped "获取财务指标失败" ticker (.httpStatus resp.status_code)),
      cache := cache, nreq := 1 }
  else
    let financial_metrics := (resp.data.take limit).map (fun item =>
      { ticker := ticker, report_period := item.REPORT_DATE,
        revenue := item.TOTAL_OPERATE_INCOME, net_income := item.PARENT_NETPROFIT,
        eps := item.BASIC_EPS, market_cap := none : FinancialMetrics })
    if financial_metrics ≠ [] then
      { result := .ok financial_metrics,
        cache := cache.set_financial_metrics ticker financial_metrics, nreq := 1 }
    else
      { result := .ok financial_metrics, cache := cache, nreq := 1 }

/-- One page request of the paginated financialdatasets endpoints: the moving
`filing_date_lte`/`end_date` cursor, and whether the `X-API-KEY` header was
attached (it is attached only when the env var is truthy; a missing key is
not an error on this path). -/
structure PageReq where
  cursor : Date
  has_key : Bool
deriving DecidableEq

/-- A financialdatasets insider-trades page. -/
structure TradesPage where
  status_code : Nat
  text : String
  insider_trades : List InsiderTrade

/-- A financialdatasets news page. -/
structure NewsPage where
  status_code : Nat
  text : String
  news : List CompanyNews

/-- Result of the pagination loop: normal exit, raised error, or fuel
exhaustion (the source has no iteration bound; `fuelOut` marks a run still
going after `fuel` iterations).  Each carries the requests issued so far. -/
inductive LoopOut (α : Type) where
  | done (acc : List α) (reqs : List PageReq)
  | fail (e : ApiError) (reqs : List PageReq)
  | fuelOut (reqs : List PageReq)

/-- The requests a loop outcome issued. -/
def LoopOut.reqs : LoopOut α → List PageReq
  | .done _ rs => rs
  | .fail _ rs => rs
  | .fuelOut rs => rs

/-- Whether the loop ran out of fuel (i.e. had not terminated). -/
def LoopOut.isFuelOut : LoopOut α → Bool
  | .fuelOut _ => true
  | _ => false

/-- Outcome of one loop iteration: exit with a result, or continue with an
updated cursor, accumulator and request trace. -/
inductive PageStep (α : Type) where
  | stop (res : LoopOut α)
  | next (current_end_date : Date) (acc : List α) (reqs : List PageReq)

/-- Whether the iteration decided to continue paginating. -/
def PageStep.isNext : PageStep α → Bool
  | .next _ _ _ => true
  | _ => false

/-- Python `min(trade.filing_date for trade in insider_trades)`; the loop
only evaluates it on a non-empty page (0 is junk for the empty list). -/
def minFiling : List InsiderTrade → Date
  | [] => 0
  | t :: ts => ts.foldl (fun m u => Nat.min m u.filing_date) t.filing_date

/-- Python `min(news.date for news in company_news)`. -/
def minNewsDate : List CompanyNews → Date
  | [] => 0
  | n :: ns => ns.foldl (fun m u => Nat.min m u.date) n.date

/-- One iteration of the `while True` loop of `api_east.get_insider_trades`:
request at the cursor, fail on non-2xx, stop on an empty page, extend,
stop when no `start_date` was given or the page is short, move the cursor to
the page's oldest filing date, stop once it reached/passed `start_date`. -/
def tradesStep (server : Date → TradesPage) (ticker : String)
    (start_date : Option Date) (limit : Nat) (has_key : Bool)
    (current_end_date : Date) (all_trades : List InsiderTrade)
    (reqs : List PageReq) : PageStep InsiderTrade :=
  let resp := server current_end_date
  let reqs := reqs ++ [⟨current_end_date, has_key⟩]
  if resp.status_code ≠ 200 then
    .stop (.fail (.transport ticker resp.status_code resp.text) reqs)
  else
    let insider_trades := resp.insider_trades
    if insider_trades = [] then .stop (.done all_trades reqs)
    else
      let all_trades := all_trades ++ insider_trades
      match start_date with
      | none => .stop (.done all_trades reqs)
      | some sd =>
        if insider_trades.length < limit then .stop (.done all_trades reqs)
        else
          let current_end_date := minFiling insider_trades
          if current_end_date ≤ sd then .stop (.done all_trades reqs)
          else .next current_end_date all_trades reqs

/-- The trades pagination loop, run for at most `fuel` iterations. -/
def tradesPages (server : Date → TradesPage) (ticker : String)
    (start_date : Option Date) (limit : Nat) (has_key : Bool) :
    Nat → Date → List InsiderTrade → List PageReq → LoopOut InsiderTrade
  | 0, _, _, reqs => .fuelOut reqs
  | fuel + 1, current_end_date, all_trades, reqs =>
    match tradesStep server ticker start_date limit has_key current_end_date all_trades reqs with
    | .stop res => res
    | .next c a r => tradesPages server ticker start_date limit has_key fuel c a r

/-- One iteration of the `while True` loop of `api_east.get_company_news`,
identical in shape to the trades iteration with `news.date` as the key. -/
def newsStep (server : Date → NewsPage) (ticker : String)
    (start_date : Option Date) (limit : Nat) (has_key : Bool)
    (current_end_date : Date) (all_news : List CompanyNews)
    (reqs : List PageReq) : PageStep CompanyNews :=
  let resp := server current_end_date
  let reqs := reqs ++ [⟨current_end_date, has_key⟩]
  if resp.status_code ≠ 200 then
    .stop (.fail (.transport ticker resp.status_code resp.text) reqs)
  else
    let company_news := resp.news
    if company_news = [] then .stop (.done all_news reqs)
    else
      let all_news := all_news ++ company_news
      match start_date with
      | none => .stop (.done all_news reqs)
      | some sd =>
        if company_news.length < limit then .stop (.done all_news reqs)
        else
          let current_end_date := minNewsDate company_news
          if current_end_date ≤ sd then .stop (.done all_news reqs)
          else .next current_end_date all_news reqs

/-- The news pagination loop, run for at most `fuel` iterations. -/
def newsPages (server : Date → NewsPage) (ticker : String)
    (start_date : Option Date) (limit : Nat) (has_key : Bool) :
    Nat → Date → List CompanyNews → List PageReq → LoopOut CompanyNews
  | 0, _, _, reqs => .fuelOut reqs
  | fuel + 1, current_end_date, all_news, reqs =>
    match newsStep server ticker start_date limit has_key current_end_date all_news reqs with
    | .stop res => res
    | .next c a r => newsPages server ticker start_date limit has_key fuel c a r

/-- Outcome of a paginated fetcher: `none` marks a run that had not
terminated within the given fuel (the source loop has no bound). -/
structure PagedOut (α : Type) where
  result : Option (Except ApiError (List α))
  cache : Cache
  reqs : List PageReq

/-- Shallow embedding of `api_east.get_insider_trades`: cache-hit path as in
`api.py`; otherwise paginate from `end_date`; the accumulated trades are
returned unsorted and untruncated, written back iff non-empty. -/
def get_insider_trades (env : Env) (server : Date → TradesPage) (cache : Cache)
    (ticker : String) (end_date : Date) (start_date : Option Date := none)
    (limit : Nat := 1000) (fuel : Nat := 1000000) : PagedOut InsiderTrade :=
  let cached_data := cache.insider_trades ticker
  let filtered_data := tradesView cache ticker start_date end_date
  if cached_data ≠ [] ∧ filtered_data ≠ [] then
    { result := some (.ok filtered_data), cache := cache, reqs := [] }
  else
    let has_key := pyTruthy env.FINANCIAL_DATASETS_API_KEY
    match tradesPages server ticker start_date limit has_key fuel end_date [] [] with
    | .fuelOut rs => { result := none, cache := cache, reqs := rs }
    | .fail e rs => { result := some (.error e), cache := cache, reqs := rs }
    | .done all_trades rs =>
      if all_trades = [] then
        { result := some (.ok []), cache := cache, reqs := rs }
      else
        { result := some (.ok all_trades),
          cache := cache.set_insider_trades ticker all_trades, reqs := rs }

/-- Shallow embedding of `api_east.get_company_news`, same orchestration as
the insider-trades fetcher. -/
def get_company_news (env : Env) (server : Date → NewsPage) (cache : Cache)
    (ticker : String) (end_date : Date) (start_date : Option Date := none)
    (limit : Nat := 1000) (fuel : Nat := 1000000) : PagedOut CompanyNews :=
  let cached_data := cache.company_news ticker
  let filtered_data := newsView cache ticker start_date end_date
  if cached_data ≠ [] ∧ filtered_data ≠ [] then
    { result := some (.ok filtered_data), cache := cache, reqs := [] }
  else
    let has_key := pyTruthy env.FINANCIAL_DATASETS_API_KEY
    match newsPages server ticker start_date limit has_key fuel end_date [] [] with
    | .fuelOut rs => { result := none, cache := cache, reqs := rs }
    | .fail e rs => { result := some (.error e), cache := cache, reqs := rs }
    | .done all_news rs =>
      if all_news = [] then
        { result := some (.ok []), cache := cache, reqs := rs }
      else
        { result := some (.ok all_news),
          cache := cache.set_company_news ticker all_news, reqs := rs }

/-- A 东方财富 quote response: status and the optional total market value
field `f116` (元). -/
structure EastQuoteResp where
  status_code : Nat
  f116 : Option ℚ

/-- Shallow embedding of `api_east.get_market_cap`: try the quote endpoint's
`f116` (converted to 亿元); when it is absent or falsy fall back to the
latest financial-metrics record's market cap; any exception inside the try
block (transport failure of either request) is swallowed into `None`. -/
def get_market_cap (quote : EastQuoteResp) (finResp : EastFinResp) (cache : Cache)
    (ticker : String) (end_date : Date) : Option ℚ × Cache :=
  if 400 ≤ quote.status_code then (none, cache)
  else if pyTruthyQ quote.f116 then
    (quote.f116.map (fun mc => mc / 100000000), cache)
  else
    let out := get_financial_metrics finResp cache ticker end_date
    match out.result with
    | .error _ => (none, out.cache)
    | .ok [] => (none, out.cache)
    | .ok (m :: _) =>
      if pyTruthyQ m.market_cap then (m.market_cap, out.cache)
      else (none, out.cache)

end ApiEast

/-! Concrete fixtures used by the counterexamples and witnesses below. -/

/-- An environment with the JUHE key set. -/
def envJ : Env := { JUHE_API_KEY := some "k" }

/-- An environment with no keys set. -/
def envNoKeys : Env := {}

/-- A cached price record for ticker 600000. -/
def pW : Price :=
  { ticker := "600000", time := 3, open_ := 1, high := 2, low := 1, close := 2,
    volume := 10 }

/-- A cache holding one price for 600000. -/
def cacheW : Cache := Cache.empty.set_prices "600000" [pW]

/-- An empty successful JUHE price response. -/
def respPriceOk : Api.JuheResp Api.RawJuhePrice :=
  { status_code := 200, text := "", error_code := 0, reason := "", data := [] }

/-- A JUHE price response with one raw item (date 3). -/
def respPrice1 : Api.JuheResp Api.RawJuhePrice :=
  { status_code := 200, text := "", error_code := 0, reason := "",
    data := [{ date := 3, open_ := 1, high := 2, low := 1, close := 2, volume := 10 }] }

/-- The Price record `Api.get_prices` builds from `respPrice1`. -/
def pN : Price :=
  { ticker := "600000", time := 3, open_ := 1, high := 2, low := 1, close := 2,
    volume := 10, adj_close := none }

/-- A failing JUHE price response (status 500, body "boom"). -/
def respPrice500 : Api.JuheResp Api.RawJuhePrice :=
  { status_code := 500, text := "boom", error_code := 0, reason := "", data := [] }

/-- Two insider trades with ascending effective dates (out of order for a
descending result). -/
def tA : InsiderTrade := { ticker := "600000", filing_date := 1 }

/-- Companion trade to `tA`, one day later. -/
def tB : InsiderTrade := { ticker := "600000", filing_date := 2 }

/-- A trades server answering every cursor with the (unsorted) page
`[tA, tB]`. -/
def srvTradesAB : Date → ApiEast.TradesPage :=
  fun _ => { status_code := 200, text := "", insider_trades := [tA, tB] }

/-- A news item dated 100 (outside the query range of the C3 scenario). -/
def nOut : CompanyNews := { ticker := "600000", date := 100 }

/-- A news server answering every cursor with `[nOut]`. -/
def srvNewsOut : Date → ApiEast.NewsPage :=
  fun _ => { status_code := 200, text := "", news := [nOut] }

/-- A trade filed on day 5, used as a constant full page. -/
def tFix : InsiderTrade := { ticker := "600000", filing_date := 5 }

/-- A server that always answers with the same full one-trade page: the
pagination cursor then never moves and never reaches `start_date`. -/
def srvTradesConst : Date → ApiEast.TradesPage :=
  fun _ => { status_code := 200, text := "", insider_trades := [tFix] }

/-- A news item dated 5, used as a constant full page. -/
def nFix : CompanyNews := { ticker := "600000", date := 5 }

/-- The news analogue of `srvTradesConst`. -/
def srvNewsConst : Date → ApiEast.NewsPage :=
  fun _ => { status_code := 200, text := "", news := [nFix] }

/-- A JUHE financial response whose single record post-dates the C7 query
range (report date 30, market cap 5). -/
def respFinLate : Api.JuheResp Api.RawJuheFin :=
  { status_code := 200, text := "", error_code := 0, reason := "",
    data := [{ date := 30, total_market_cap := some 5 }] }

/-- The metrics record `Api.get_financial_metrics` builds from `respFinLate`. -/
def mLate : FinancialMetrics :=
  { ticker := "600000", report_period := 30, market_cap := some 5 }

/-- A JUHE executives response with one in-range item (date 5). -/
def respExecW : Api.JuheResp Api.RawJuheExec :=
  { status_code := 200, text := "", error_code := 0, reason := "",
    data := [{ date := 5, name := none, position := none, change_type := none,
               change_shares := none, price := none, change_amount := none,
               total_shares := none }] }

/-- A failing JUHE executives response. -/
def respExec500 : Api.JuheResp Api.RawJuheExec :=
  { status_code := 500, text := "bad gateway", error_code := 0, reason := "", data := [] }

/-- The trade `Api.get_insider_trades` builds from `respExecW`. -/
def twW : InsiderTrade :=
  { ticker := "600000", filing_date := 5, transaction_date := some 5,
    insider_name := none, insider_title := none, transaction_type := "",
    shares := 0, price := none, value := none, shares_owned := none }

/-- A failing 新浪 response. -/
def sina500 : ApiEast.SinaResp := { status_code := 500, data := [] }

/-- A successful 东方财富 kline response with one well-formed line. -/
def east200 : ApiEast.EastKlineResp :=
  { status_code := 200,
    klines := [{ ok7 := true, date := 3, open_ := 1, close := 2, high := 2,
                 low := 1, volume := 7 }] }

/-- The price the 东方财富 fallback builds from `east200`. -/
def pKl : Price :=
  { ticker := "600000", time := 3, open_ := 1, close := 2, high := 2, low := 1,
    volume := 7, adj_close := some 2 }

/-- A failing 东方财富 kline response. -/
def east502 : ApiEast.EastKlineResp := { status_code := 502, klines := [] }

/-- A quote response carrying a truthy total market value `f116`. -/
def quoteW : ApiEast.EastQuoteResp := { status_code := 200, f116 := some 200000000 }

/-- A 东方财富 financial response whose single record has no market cap
(the east mapping always leaves it unset). -/
def finRespE : ApiEast.EastFinResp :=
  { status_code := 200,
    data := [{ REPORT_DATE := 10, TOTAL_OPERATE_INCOME := none,
               PARENT_NETPROFIT := none, BASIC_EPS := none }] }

/-- The metrics record `ApiEast.get_financial_metrics` builds from `finRespE`. -/
def mE : FinancialMetrics :=
  { ticker := "600000", report_period := 10, market_cap := none }

/-- A stale cached trade dated 50, outside the C5 query range. -/
def tOld : InsiderTrade := { ticker := "600000", filing_date := 50 }

/-- A cache holding only the stale trade `tOld` for 600000. -/
def cacheT : Cache := Cache.empty.set_insider_trades "600000" [tOld]

/-! General lemmas about the sort, the cache views and the pagination loop. -/

theorem sortDescBy_sorted (k : α → Date) (l : List α) :
    SortedDescOn k (sortDescBy k l) :=
  List.sorted_insertionSort _ l

theorem sortDescBy_eq_self {k : α → Date} {l : List α} (h : SortedDescOn k l) :
    sortDescBy k l = l :=
  List.Sorted.insertionSort_eq h

theorem mem_sortDescBy {k : α → Date} {l : List α} {a : α} :
    a ∈ sortDescBy k l ↔ a ∈ l :=
  (List.perm_insertionSort _ l).mem_iff

theorem sortDescBy_eq_nil_iff {k : α → Date} {l : List α} :
    sortDescBy k l = [] ↔ l = [] := by
  constructor
  · intro h
    have hlen := (List.perm_insertionSort (fun a b => k b ≤ k a) l).length_eq
    rw [show l.insertionSort (fun a b => k b ≤ k a) = sortDescBy k l from rfl, h] at hlen
    exact List.length_eq_zero.mp hlen.symm
  · intro h; subst h; rfl

theorem sortedDescOn_take {k : α → Date} {l : List α} (h : SortedDescOn k l) (n : Nat) :
    SortedDescOn k (l.take n) :=
  List.Pairwise.sublist (List.take_sublist n l) h

theorem ne_nil_of_filter_ne_nil {p : α → Bool} {l : List α}
    (h : l.filter p ≠ []) : l ≠ [] := by
  intro he; subst he; exact h rfl

theorem pricesView_ne_nil {cache : Cache} {ticker : String} {sd ed : Date}
    (h : pricesView cache ticker sd ed ≠ []) : cache.prices ticker ≠ [] :=
  ne_nil_of_filter_ne_nil h

theorem metricsView_ne_nil {cache : Cache} {ticker : String} {ed : Date}
    (h : metricsView cache ticker ed ≠ []) : cache.financial_metrics ticker ≠ [] := by
  intro he
  apply h
  unfold metricsView
  rw [he]
  rfl

theorem tradesView_ne_nil {cache : Cache} {ticker : String} {sd : Option Date} {ed : Date}
    (h : tradesView cache ticker sd ed ≠ []) : cache.insider_trades ticker ≠ [] := by
  intro he
  apply h
  unfold tradesView
  rw [he]
  rfl

theorem newsView_ne_nil {cache : Cache} {ticker : String} {sd : Option Date} {ed : Date}
    (h : newsView cache ticker sd ed ≠ []) : cache.company_news ticker ≠ [] := by
  intro he
  apply h
  unfold newsView
  rw [he]
  rfl

namespace ApiEast

theorem tradesStep_stop_reqs {server : Date → TradesPage} {ticker : String}
    {sd : Option Date} {limit : Nat} {hk : Bool} {ced : Date}
    {acc : List InsiderTrade} {reqs : List PageReq} {res : LoopOut InsiderTrade}
    (h : tradesStep server ticker sd limit hk ced acc reqs = .stop res) :
    res.reqs = reqs ++ [⟨ced, hk⟩] := by
  rcases sd with _ | s <;>
  · simp only [tradesStep] at h
    split_ifs at h <;> first | (cases h; rfl) | simp at h

theorem tradesStep_next_inv {server : Date → TradesPage} {ticker : String}
    {sd : Option Date} {limit : Nat} {hk : Bool} {ced : Date}
    {acc : List InsiderTrade} {reqs : List PageReq} {c : Date}
    {a : List InsiderTrade} {r : List PageReq}
    (h : tradesStep server ticker sd limit hk ced acc reqs = .next c a r) :
    r = reqs ++ [⟨ced, hk⟩] ∧ ∃ s, sd = some s ∧ s < c := by
  rcases sd with _ | s
  · simp only [tradesStep] at h
    split_ifs at h <;> simp at h
  · simp only [tradesStep] at h
    split_ifs at h with h1 h2 h3 h4 <;>
      first
        | (injection h with hc ha hr
           exact ⟨hr.symm, s, rfl, hc ▸ Nat.lt_of_not_le h4⟩)
        | simp at h

theorem tradesStep_fail_shape {server : Date → TradesPage} {ticker : String}
    {sd : Option Date} {limit : Nat} {hk : Bool} {ced : Date}
    {acc : List InsiderTrade} {reqs : List PageReq} {e : ApiError} {rs : List PageReq}
    (h : tradesStep server ticker sd limit hk ced acc reqs = .stop (.fail e rs)) :
    e = .transport ticker (server ced).status_code (server ced).text := by
  rcases sd with _ | s <;>
  · simp only [tradesStep] at h
    split_ifs at h <;> first | (cases h; rfl) | simp at h

end ApiEast

namespace ApiEast

theorem newsStep_stop_reqs {server : Date → NewsPage} {ticker : String}
    {sd : Option Date} {limit : Nat} {hk : Bool} {ced : Date}
    {acc : List CompanyNews} {reqs : List PageReq} {res : LoopOut CompanyNews}
    (h : newsStep server ticker sd limit hk ced acc reqs = .stop res) :
    res.reqs = reqs ++ [⟨ced, hk⟩] := by
  rcases sd with _ | s <;>
  · simp only [newsStep] at h
    split_ifs at h <;> first | (cases h; rfl) | simp at h

theorem newsStep_next_inv {server : Date → NewsPage} {ticker : String}
    {sd : Option Date} {limit : Nat} {hk : Bool} {ced : Date}
    {acc : List CompanyNews} {reqs : List PageReq} {c : Date}
    {a : List CompanyNews} {r : List PageReq}
    (h : newsStep server ticker sd limit hk ced acc reqs = .next c a r) :
    r = reqs ++ [⟨ced, hk⟩] ∧ ∃ s, sd = some s ∧ s < c := by
  rcases sd with _ | s
  · simp only [newsStep] at h
    split_ifs at h <;> simp at h
  · simp only [newsStep] at h
    split_ifs at h with h1 h2 h3 h4 <;>
      first
        | (injection h with hc ha hr
           exact ⟨hr.symm, s, rfl, hc ▸ Nat.lt_of_not_le h4⟩)
        | simp at h

theorem newsStep_fail_shape {server : Date → NewsPage} {ticker : String}
    {sd : Option Date} {limit : Nat} {hk : Bool} {ced : Date}
    {acc : List CompanyNews} {reqs : List PageReq} {e : ApiError} {rs : List PageReq}
    (h : newsStep server ticker sd limit hk ced acc reqs = .stop (.fail e rs)) :
    e = .transport ticker (server ced).status_code (server ced).text := by
  rcases sd with _ | s <;>
  · simp only [newsStep] at h
    split_ifs at h <;> first | (cases h; rfl) | simp at h

theorem tradesPages_reqs_extend (server : Date → TradesPage) (ticker : String)
    (sd : Option Date) (limit : Nat) (hk : Bool) :
    ∀ (fuel : Nat) (ced : Date) (acc : List InsiderTrade) (reqs : List PageReq),
      ∃ extra : List PageReq,
        (tradesPages server ticker sd limit hk fuel ced acc reqs).reqs = reqs ++ extra := by
  intro fuel
  induction fuel with
  | zero => intro ced acc reqs; exact ⟨[], by simp [tradesPages, LoopOut.reqs]⟩
  | succ f ih =>
    intro ced acc reqs
    simp only [tradesPages]
    cases hstep : tradesStep server ticker sd limit hk ced acc reqs with
    | stop res => exact ⟨[⟨ced, hk⟩], tradesStep_stop_reqs hstep⟩
    | next c a r =>
      obtain ⟨hr, -⟩ := tradesStep_next_inv hstep
      obtain ⟨extra, hx⟩ := ih c a r
      exact ⟨⟨ced, hk⟩ :: extra, by rw [hx, hr]; simp⟩

theorem tradesPages_reqs_head (server : Date → TradesPage) (ticker : String)
    (sd : Option Date) (limit : Nat) (hk : Bool)
    (fuel : Nat) (ced : Date) (acc : List InsiderTrade) (reqs : List PageReq)
    (hfuel : 1 ≤ fuel) :
    ∃ extra : List PageReq,
      (tradesPages server ticker sd limit hk fuel ced acc reqs).reqs =
        reqs ++ ⟨ced, hk⟩ :: extra := by
  rcases fuel with _ | f
  · omega
  · simp only [tradesPages]
    cases hstep : tradesStep server ticker sd limit hk ced acc reqs with
    | stop res => exact ⟨[], by rw [tradesStep_stop_reqs hstep]⟩
    | next c a r =>
      obtain ⟨hr, -⟩ := tradesStep_next_inv hstep
      obtain ⟨extra, hx⟩ := tradesPages_reqs_extend server ticker sd limit hk f c a r
      exact ⟨extra, by rw [hx, hr]; simp⟩

theorem tradesPages_fail_transport {server : Date → TradesPage} {ticker : String}
    {sd : Option Date} {limit : Nat} {hk : Bool} :
    ∀ {fuel : Nat} {ced : Date} {acc : List InsiderTrade} {reqs : List PageReq}
      {e : ApiError} {rs : List PageReq},
      tradesPages server ticker sd limit hk fuel ced acc reqs = .fail e rs →
      ∃ st tx, e = .transport ticker st tx := by
  intro fuel
  induction fuel with
  | zero => intro ced acc reqs e rs h; simp [tradesPages] at h
  | succ f ih =>
    intro ced acc reqs e rs h
    simp only [tradesPages] at h
    cases hstep : tradesStep server ticker sd limit hk ced acc reqs with
    | stop res =>
      rw [hstep] at h
      cases res with
      | done a2 r2 => simp at h
      | fuelOut r2 => simp at h
      | fail e2 r2 =>
        injection h with he hr
        subst he
        exact ⟨_, _, tradesStep_fail_shape hstep⟩
    | next c a r =>
      rw [hstep] at h
      exact ih h

theorem newsPages_reqs_extend (server : Date → NewsPage) (ticker : String)
    (sd : Option Date) (limit : Nat) (hk : Bool) :
    ∀ (fuel : Nat) (ced : Date) (acc : List CompanyNews) (reqs : List PageReq),
      ∃ extra : List PageReq,
        (newsPages server ticker sd limit hk fuel ced acc reqs).reqs = reqs ++ extra := by
  intro fuel
  induction fuel with
  | zero => intro ced acc reqs; exact ⟨[], by simp [newsPages, LoopOut.reqs]⟩
  | succ f ih =>
    intro ced acc reqs
    simp only [newsPages]
    cases hstep : newsStep server ticker sd limit hk ced acc reqs with
    | stop res => exact ⟨[⟨ced, hk⟩], newsStep_stop_reqs hstep⟩
    | next c a r =>
      obtain ⟨hr, -⟩ := newsStep_next_inv hstep
      obtain ⟨extra, hx⟩ := ih c a r
      exact ⟨⟨ced, hk⟩ :: extra, by rw [hx, hr]; simp⟩

theorem newsPages_reqs_head (server : Date → NewsPage) (ticker : String)
    (sd : Option Date) (limit : Nat) (hk : Bool)
    (fuel : Nat) (ced : Date) (acc : List CompanyNews) (reqs : List PageReq)
    (hfuel : 1 ≤ fuel) :
    ∃ extra : List PageReq,
      (newsPages server ticker sd limit hk fuel ced acc reqs).reqs =
        reqs ++ ⟨ced, hk⟩ :: extra := by
  rcases fuel with _ | f
  · omega
  · simp only [newsPages]
    cases hstep : newsStep server ticker sd limit hk ced acc reqs with
    | stop res => exact ⟨[], by rw [newsStep_stop_reqs hstep]⟩
    | next c a r =>
      obtain ⟨hr, -⟩ := newsStep_next_inv hstep
      obtain ⟨extra, hx⟩ := newsPages_reqs_extend server ticker sd limit hk f c a r
      exact ⟨extra, by rw [hx, hr]; simp⟩

theorem newsPages_fail_transport {server : Date → NewsPage} {ticker : String}
    {sd : Option Date} {limit : Nat} {hk : Bool} :
    ∀ {fuel : Nat} {ced : Date} {acc : List CompanyNews} {reqs : List PageReq}
      {e : ApiError} {rs : List PageReq},
      newsPages server ticker sd limit hk fuel ced acc reqs = .fail e rs →
      ∃ st tx, e = .transport ticker st tx := by
  intro fuel
  induction fuel with
  | zero => intro ced acc reqs e rs h; simp [newsPages] at h
  | succ f ih =>
    intro ced acc reqs e rs h
    simp only [newsPages] at h
    cases hstep : newsStep server ticker sd limit hk ced acc reqs with
    | stop res =>
      rw [hstep] at h
      cases res with
      | done a2 r2 => simp at h
      | fuelOut r2 => simp at h
      | fail e2 r2 =>
        injection h with he hr
        subst he
        exact ⟨_, _, newsStep_fail_shape hstep⟩
    | next c a r =>
      rw [hstep] at h
      exact ih h

theorem tradesPages_cursor_bound {server : Date → TradesPage} {ticker : String}
    {s : Date} {limit : Nat} {hk : Bool} {ed : Date} :
    ∀ (fuel : Nat) (ced : Date) (acc : List InsiderTrade) (reqs : List PageReq),
      (∀ q ∈ reqs, q.cursor = ed ∨ s < q.cursor) → (ced = ed ∨ s < ced) →
      ∀ q ∈ (tradesPages server ticker (some s) limit hk fuel ced acc reqs).reqs,
        q.cursor = ed ∨ s < q.cursor := by
  intro fuel
  induction fuel with
  | zero => intro ced acc reqs hreqs hced q hq; exact hreqs q hq
  | succ f ih =>
    intro ced acc reqs hreqs hced q hq
    simp only [tradesPages] at hq
    cases hstep : tradesStep server ticker (some s) limit hk ced acc reqs with
    | stop res =>
      rw [hstep] at hq
      rw [tradesStep_stop_reqs hstep] at hq
      rcases List.mem_append.mp hq with hin | hin
      · exact hreqs q hin
      · rcases List.mem_singleton.mp hin with rfl
        exact hced
    | next c a r =>
      rw [hstep] at hq
      obtain ⟨hr, s2, hs2, hlt⟩ := tradesStep_next_inv hstep
      have hs2e : s2 = s := by injection hs2.symm
      refine ih c a r ?_ ?_ q hq
      · intro q2 hq2
        rw [hr] at hq2
        rcases List.mem_append.mp hq2 with hin | hin
        · exact hreqs q2 hin
        · rcases List.mem_singleton.mp hin with rfl
          exact hced
      · right; rw [← hs2e]; exact hlt

theorem newsPages_cursor_bound {server : Date → NewsPage} {ticker : String}
    {s : Date} {limit : Nat} {hk : Bool} {ed : Date} :
    ∀ (fuel : Nat) (ced : Date) (acc : List CompanyNews) (reqs : List PageReq),
      (∀ q ∈ reqs, q.cursor = ed ∨ s < q.cursor) → (ced = ed ∨ s < ced) →
      ∀ q ∈ (newsPages server ticker (some s) limit hk fuel ced acc reqs).reqs,
        q.cursor = ed ∨ s < q.cursor := by
  intro fuel
  induction fuel with
  | zero => intro ced acc reqs hreqs hced q hq; exact hreqs q hq
  | succ f ih =>
    intro ced acc reqs hreqs hced q hq
    simp only [newsPages] at hq
    cases hstep : newsStep server ticker (some s) limit hk ced acc reqs with
    | stop res =>
      rw [hstep] at hq
      rw [newsStep_stop_reqs hstep] at hq
      rcases List.mem_append.mp hq with hin | hin
      · exact hreqs q hin
      · rcases List.mem_singleton.mp hin with rfl
        exact hced
    | next c a r =>
      rw [hstep] at hq
      obtain ⟨hr, s2, hs2, hlt⟩ := newsStep_next_inv hstep
      have hs2e : s2 = s := by injection hs2.symm
      refine ih c a r ?_ ?_ q hq
      · intro q2 hq2
        rw [hr] at hq2
        rcases List.mem_append.mp hq2 with hin | hin
        · exact hreqs q2 hin
        · rcases List.mem_singleton.mp hin with rfl
          exact hced
      · right; rw [← hs2e]; exact hlt

end ApiEast

theorem east_trades_reqs_eq (env : Env) (server : Date → ApiEast.TradesPage)
    (cache : Cache) (ticker : String) (ed : Date) (sd : Option Date)
    (limit fuel : Nat) (hv : tradesView cache ticker sd ed = []) :
    (ApiEast.get_insider_trades env server cache ticker ed sd limit fuel).reqs =
      (ApiEast.tradesPages server ticker sd limit
        (pyTruthy env.FINANCIAL_DATASETS_API_KEY) fuel ed [] []).reqs := by
  simp only [ApiEast.get_insider_trades]
  rw [if_neg (fun hcontra => hcontra.2 hv)]
  cases hloop : ApiEast.tradesPages server ticker sd limit
      (pyTruthy env.FINANCIAL_DATASETS_API_KEY) fuel ed [] [] <;>
    first | rfl | (dsimp only; split_ifs <;> rfl)

theorem east_news_reqs_eq (env : Env) (server : Date → ApiEast.NewsPage)
    (cache : Cache) (ticker : String) (ed : Date) (sd : Option Date)
    (limit fuel : Nat) (hv : newsView cache ticker sd ed = []) :
    (ApiEast.get_company_news env server cache ticker ed sd limit fuel).reqs =
      (ApiEast.newsPages server ticker sd limit
        (pyTruthy env.FINANCIAL_DATASETS_API_KEY) fuel ed [] []).reqs := by
  simp only [ApiEast.get_company_news]
  rw [if_neg (fun hcontra => hcontra.2 hv)]
  cases hloop : ApiEast.newsPages server ticker sd limit
      (pyTruthy env.FINANCIAL_DATASETS_API_KEY) fuel ed [] [] <;>
    first | rfl | (dsimp only; split_ifs <;> rfl)

/-- C1: for every data kind and both provider files, a cache hit whose
in-memory date-range filter is non-empty is returned as-is with zero network
requests, and a cache lookup whose filtered view is empty always falls
through to a live fetch (at least one request is issued; for the `api.py`
functions this assumes the configured key, whose absence aborts before the
request and is treated in C6). -/
theorem C1_cache_hit_policy :
    (∀ env resp cache ticker sd ed,
      (pricesView cache ticker sd ed ≠ [] →
        Api.get_prices env resp cache ticker sd ed =
          { result := .ok (pricesView cache ticker sd ed), cache := cache, nreq := 0 }) ∧
      (pricesView cache ticker sd ed = [] → pyTruthy env.JUHE_API_KEY = true →
        1 ≤ (Api.get_prices env resp cache ticker sd ed).nreq)) ∧
    (∀ env resp cache ticker ed limit,
      (metricsView cache ticker ed ≠ [] →
        Api.get_financial_metrics env resp cache ticker ed limit =
          { result := .ok ((metricsView cache ticker ed).take limit),
            cache := cache, nreq := 0 }) ∧
      (metricsView cache ticker ed = [] → pyTruthy env.JUHE_API_KEY = true →
        1 ≤ (Api.get_financial_metrics env resp cache ticker ed limit).nreq)) ∧
    (∀ env resp cache ticker ed sd limit,
      (tradesView cache ticker sd ed ≠ [] →
        Api.get_insider_trades env resp cache ticker ed sd limit =
          { result := .ok (tradesView cache ticker sd ed), cache := cache, nreq := 0 }) ∧
      (tradesView cache ticker sd ed = [] → pyTruthy env.JUHE_API_KEY = true →
        1 ≤ (Api.get_insider_trades env resp cache ticker ed sd limit).nreq)) ∧
    (∀ env resp cache ticker ed sd limit,
      (newsView cache ticker sd ed ≠ [] →
        Api.get_company_news env resp cache ticker ed sd limit =
          { result := .ok (newsView cache ticker sd ed), cache := cache, nreq := 0 }) ∧
      (newsView cache ticker sd ed = [] → pyTruthy env.JUHE_API_KEY = true →
        1 ≤ (Api.get_company_news env resp cache ticker ed sd limit).nreq)) ∧
    (∀ sina east cache ticker sd ed,
      (pricesView cache ticker sd ed ≠ [] →
        ApiEast.get_prices sina east cache ticker sd ed =
          { result := .ok (pricesView cache ticker sd ed), cache := cache, nreq := 0 }) ∧
      (pricesView cache ticker sd ed = [] →
        1 ≤ (ApiEast.get_prices sina east cache ticker sd ed).nreq)) ∧
    (∀ resp cache ticker ed limit,
      (metricsView cache ticker ed ≠ [] →
        ApiEast.get_financial_metrics resp cache ticker ed limit =
          { result := .ok ((metricsView cache ticker ed).take limit),
            cache := cache, nreq := 0 }) ∧
      (metricsView cache ticker ed = [] →
        1 ≤ (ApiEast.get_financial_metrics resp cache ticker ed limit).nreq)) ∧
    (∀ env server cache ticker ed sd limit fuel,
      (tradesView cache ticker sd ed ≠ [] →
        ApiEast.get_insider_trades env server cache ticker ed sd limit fuel =
          { result := some (.ok (tradesView cache ticker sd ed)),
            cache := cache, reqs := [] }) ∧
      (tradesView cache ticker sd ed = [] → 1 ≤ fuel →
        (ApiEast.get_insider_trades env server cache ticker ed sd limit fuel).reqs ≠ [])) ∧
    (∀ env server cache ticker ed sd limit fuel,
      (newsView cache ticker sd ed ≠ [] →
        ApiEast.get_company_news env server cache ticker ed sd limit fuel =
          { result := some (.ok (newsView cache ticker sd ed)),
            cache := cache, reqs := [] }) ∧
      (newsView cache ticker sd ed = [] → 1 ≤ fuel →
        (ApiEast.get_company_news env server cache ticker ed sd limit fuel).reqs ≠ [])) := by
  refine ⟨?_, ?_, ?_, ?_, ?_, ?_, ?_, ?_⟩
  · intro env resp cache ticker sd ed
    constructor
    · intro h
      have hc := pricesView_ne_nil h
      simp only [Api.get_prices]
      rw [if_pos ⟨hc, h⟩]
    · intro hv hkey
      simp only [Api.get_prices]
      rw [if_neg (fun hcontra => hcontra.2 hv), if_neg (by simp [hkey])]
      split_ifs <;> simp
  · intro env resp cache ticker ed limit
    constructor
    · intro h
      have hc := metricsView_ne_nil h
      simp only [Api.get_financial_metrics]
      rw [if_pos ⟨hc, h⟩]
    · intro hv hkey
      simp only [Api.get_financial_metrics]
      rw [if_neg (fun hcontra => hcontra.2 hv), if_neg (by simp [hkey])]
      split_ifs <;> simp
  · intro env resp cache ticker ed sd limit
    constructor
    · intro h
      have hc := tradesView_ne_nil h
      simp only [Api.get_insider_trades]
      rw [if_pos ⟨hc, h⟩]
    · intro hv hkey
      simp only [Api.get_insider_trades]
      rw [if_neg (fun hcontra => hcontra.2 hv), if_neg (by simp [hkey])]
      split_ifs <;> simp
  · intro env resp cache ticker ed sd limit
    constructor
    · intro h
      have hc := newsView_ne_nil h
      simp only [Api.get_company_news]
      rw [if_pos ⟨hc, h⟩]
    · intro hv hkey
      simp only [Api.get_company_news]
      rw [if_neg (fun hcontra => hcontra.2 hv), if_neg (by simp [hkey])]
      split_ifs <;> simp
  · intro sina east cache ticker sd ed
    constructor
    · intro h
      have hc := pricesView_ne_nil h
      simp only [ApiEast.get_prices]
      rw [if_pos ⟨hc, h⟩]
    · intro hv
      simp only [ApiEast.get_prices]
      rw [if_neg (fun hcontra => hcontra.2 hv)]
      split_ifs <;> simp
  · intro resp cache ticker ed limit
    constructor
    · intro h
      have hc := metricsView_ne_nil h
      simp only [ApiEast.get_financial_metrics]
      rw [if_pos ⟨hc, h⟩]
    · intro hv
      simp only [ApiEast.get_financial_metrics]
      rw [if_neg (fun hcontra => hcontra.2 hv)]
      split_ifs <;> simp
  · intro env server cache ticker ed sd limit fuel
    constructor
    · intro h
      have hc := tradesView_ne_nil h
      simp only [ApiEast.get_insider_trades]
      rw [if_pos ⟨hc, h⟩]
    · intro hv hfuel
      rw [east_trades_reqs_eq env server cache ticker ed sd limit fuel hv]
      obtain ⟨extra, hx⟩ := ApiEast.tradesPages_reqs_head server ticker sd limit
        (pyTruthy env.FINANCIAL_DATASETS_API_KEY) fuel ed [] [] hfuel
      rw [hx]
      simp
  · intro env server cache ticker ed sd limit fuel
    constructor
    · intro h
      have hc := newsView_ne_nil h
      simp only [ApiEast.get_company_news]
      rw [if_pos ⟨hc, h⟩]
    · intro hv hfuel
      rw [east_news_reqs_eq env server cache ticker ed sd limit fuel hv]
      obtain ⟨extra, hx⟩ := ApiEast.newsPages_reqs_head server ticker sd limit
        (pyTruthy env.FINANCIAL_DATASETS_API_KEY) fuel ed [] [] hfuel
      rw [hx]
      simp

/-- C1 witness: a concrete cache hit (one cached price in range) is returned
with zero requests. -/
theorem C1_cache_hit_policy_witness :
    Api.get_prices envJ respPriceOk cacheW "600000" 1 10 =
      { result := .ok [pW], cache := cacheW, nreq := 0 } := by
  have hv : pricesView cacheW "600000" 1 10 = [pW] := by rfl
  have h := (C1_cache_hit_policy.1 envJ respPriceOk cacheW "600000" 1 10).1
    (by rw [hv]; simp)
  rw [hv] at h
  exact h

/-- C5 counterexample: with `limit = 0`, `api.get_insider_trades`'s network
path truncates a non-empty collection to the empty list after its emptiness
check and then writes that empty list, replacing the stale cache entry — an
empty final collection with a cache write. -/
theorem C5_counterexample :
    (Api.get_insider_trades envJ respExecW cacheT "600000" 10 (some 1) 0).result =
      .ok [] ∧
    (Api.get_insider_trades envJ respExecW cacheT "600000" 10 (some 1) 0).cache.insider_trades
      "600000" = [] ∧
    cacheT.insider_trades "600000" = [tOld] := by
  refine ⟨rfl, ?_, rfl⟩
  show Function.update cacheT.insider_trades "600000"
    ((sortDescBy effective_date
      ((respExecW.data.filter (Api.execKeep (some 1) 10)).map
        (Api.execToTrade "600000"))).take 0) "600000" = []
  rw [Function.update_same]
  rfl

/-- C5 (amended): on every network path a non-empty final collection is
written back, replacing the whole cached list for that ticker and kind (all
other entries untouched), and an empty final collection leaves the cache
unchanged — except that `api.get_insider_trades` / `api.get_company_news`
guarantee the no-write-on-empty half only for `limit ≥ 1`: at `limit = 0`
the emptiness check precedes the truncation, and the empty truncated list is
written (see the counterexample).  The last four conjuncts state the
replace-whole-list semantics of the cache adapter. -/
theorem C5_write_back_policy :
    (∀ env resp cache ticker sd ed l,
      1 ≤ (Api.get_prices env resp cache ticker sd ed).nreq →
      (Api.get_prices env resp cache ticker sd ed).result = .ok l →
      (l ≠ [] → (Api.get_prices env resp cache ticker sd ed).cache =
        cache.set_prices ticker l) ∧
      (l = [] → (Api.get_prices env resp cache ticker sd ed).cache = cache)) ∧
    (∀ env resp cache ticker ed limit l,
      1 ≤ (Api.get_financial_metrics env resp cache ticker ed limit).nreq →
      (Api.get_financial_metrics env resp cache ticker ed limit).result = .ok l →
      (l ≠ [] → (Api.get_financial_metrics env resp cache ticker ed limit).cache =
        cache.set_financial_metrics ticker l) ∧
      (l = [] → (Api.get_financial_metrics env resp cache ticker ed limit).cache = cache)) ∧
    (∀ env resp cache ticker ed sd limit l,
      1 ≤ (Api.get_insider_trades env resp cache ticker ed sd limit).nreq →
      (Api.get_insider_trades env resp cache ticker ed sd limit).result = .ok l →
      (l ≠ [] → (Api.get_insider_trades env resp cache ticker ed sd limit).cache =
        cache.set_insider_trades ticker l) ∧
      (l = [] → 1 ≤ limit →
        (Api.get_insider_trades env resp cache ticker ed sd limit).cache = cache)) ∧
    (∀ env resp cache ticker ed sd limit l,
      1 ≤ (Api.get_company_news env resp cache ticker ed sd limit).nreq →
      (Api.get_company_news env resp cache ticker ed sd limit).result = .ok l →
      (l ≠ [] → (Api.get_company_news env resp cache ticker ed sd limit).cache =
        cache.set_company_news ticker l) ∧
      (l = [] → 1 ≤ limit →
        (Api.get_company_news env resp cache ticker ed sd limit).cache = cache)) ∧
    (∀ sina east cache ticker sd ed l,
      1 ≤ (ApiEast.get_prices sina east cache ticker sd ed).nreq →
      (ApiEast.get_prices sina east cache ticker sd ed).result = .ok l →
      (l ≠ [] → (ApiEast.get_prices sina east cache ticker sd ed).cache =
        cache.set_prices ticker l) ∧
      (l = [] → (ApiEast.get_prices sina east cache ticker sd ed).cache = cache)) ∧
    (∀ resp cache ticker ed limit l,
      1 ≤ (ApiEast.get_financial_metrics resp cache ticker ed limit).nreq →
      (ApiEast.get_financial_metrics resp cache ticker ed limit).result = .ok l →
      (l ≠ [] → (ApiEast.get_financial_metrics resp cache ticker ed limit).cache =
        cache.set_financial_metrics ticker l) ∧
      (l = [] → (ApiEast.get_financial_metrics resp cache ticker ed limit).cache = cache)) ∧
    (∀ env server cache ticker ed sd limit fuel l,
      (ApiEast.get_insider_trades env server cache ticker ed sd limit fuel).reqs ≠ [] →
      (ApiEast.get_insider_trades env server cache ticker ed sd limit fuel).result =
        some (.ok l) →
      (l ≠ [] → (ApiEast.get_insider_trades env server cache ticker ed sd limit fuel).cache =
        cache.set_insider_trades ticker l) ∧
      (l = [] → (ApiEast.get_insider_trades env server cache ticker ed sd limit fuel).cache =
        cache)) ∧
    (∀ env server cache ticker ed sd limit fuel l,
      (ApiEast.get_company_news env server cache ticker ed sd limit fuel).reqs ≠ [] →
      (ApiEast.get_company_news env server cache ticker ed sd limit fuel).result =
        some (.ok l) →
      (l ≠ [] → (ApiEast.get_company_news env server cache ticker ed sd limit fuel).cache =
        cache.set_company_news ticker l) ∧
      (l = [] → (ApiEast.get_company_news env server cache ticker ed sd limit fuel).cache =
        cache)) ∧
    (∀ (cache : Cache) (t : String) (l : List Price) (t2 : String),
      (cache.set_prices t l).prices t = l ∧
      (t2 ≠ t → (cache.set_prices t l).prices t2 = cache.prices t2) ∧
      (cache.set_prices t l).financial_metrics = cache.financial_metrics ∧
      (cache.set_prices t l).insider_trades = cache.insider_trades ∧
      (cache.set_prices t l).company_news = cache.company_news) ∧
    (∀ (cache : Cache) (t : String) (l : List FinancialMetrics) (t2 : String),
      (cache.set_financial_metrics t l).financial_metrics t = l ∧
      (t2 ≠ t → (cache.set_financial_metrics t l).financial_metrics t2 =
        cache.financial_metrics t2) ∧
      (cache.set_financial_metrics t l).prices = cache.prices ∧
      (cache.set_financial_metrics t l).insider_trades = cache.insider_trades ∧
      (cache.set_financial_metrics t l).company_news = cache.company_news) ∧
    (∀ (cache : Cache) (t : String) (l : List InsiderTrade) (t2 : String),
      (cache.set_insider_trades t l).insider_trades t = l ∧
      (t2 ≠ t → (cache.set_insider_trades t l).insider_trades t2 =
        cache.insider_trades t2) ∧
      (cache.set_insider_trades t l).prices = cache.prices ∧
      (cache.set_insider_trades t l).financial_metrics = cache.financial_metrics ∧
      (cache.set_insider_trades t l).company_news = cache.company_news) ∧
    (∀ (cache : Cache) (t : String) (l : List CompanyNews) (t2 : String),
      (cache.set_company_news t l).company_news t = l ∧
      (t2 ≠ t → (cache.set_company_news t l).company_news t2 = cache.company_news t2) ∧
      (cache.set_company_news t l).prices = cache.prices ∧
      (cache.set_company_news t l).financial_metrics = cache.financial_metrics ∧
      (cache.set_company_news t l).insider_trades = cache.insider_trades) := by
  refine ⟨?_, ?_, ?_, ?_, ?_, ?_, ?_, ?_, ?_, ?_, ?_, ?_⟩
  · intro env resp cache ticker sd ed l
    simp only [Api.get_prices]
    split_ifs with h1 h2 h3 h4 h5 <;> intro hn hr
    · simp at hn
    · simp at hn
    · simp at hr
    · simp at hr
    · simp only [Except.ok.injEq] at hr
      subst hr
      exact ⟨fun hc => absurd rfl hc, fun _ => rfl⟩
    · simp only [Except.ok.injEq] at hr
      subst hr
      exact ⟨fun _ => rfl, fun hc => absurd hc h5⟩
  · intro env resp cache ticker ed limit l
    simp only [Api.get_financial_metrics]
    split_ifs with h1 h2 h3 h4 h5 <;> intro hn hr
    · simp at hn
    · simp at hn
    · simp at hr
    · simp at hr
    · simp only [Except.ok.injEq] at hr
      subst hr
      exact ⟨fun hc => absurd rfl hc, fun _ => rfl⟩
    · simp only [Except.ok.injEq] at hr
      subst hr
      exact ⟨fun _ => rfl, fun hc => absurd hc h5⟩
  · intro env resp cache ticker ed sd limit l
    simp only [Api.get_insider_trades]
    split_ifs with h1 h2 h3 h4 h5 <;> intro hn hr
    · simp at hn
    · simp at hn
    · simp at hr
    · simp at hr
    · simp only [Except.ok.injEq] at hr
      subst hr
      exact ⟨fun hc => absurd rfl hc, fun _ _ => rfl⟩
    · simp only [Except.ok.injEq] at hr
      subst hr
      refine ⟨fun _ => rfl, fun hc hlim => ?_⟩
      rcases List.take_eq_nil_iff.mp hc with hz | hs
      · omega
      · exact absurd (sortDescBy_eq_nil_iff.mp hs) h5
  · intro env resp cache ticker ed sd limit l
    simp only [Api.get_company_news]
    split_ifs with h1 h2 h3 h4 h5 <;> intro hn hr
    · simp at hn
    · simp at hn
    · simp at hr
    · simp at hr
    · simp only [Except.ok.injEq] at hr
      subst hr
      exact ⟨fun hc => absurd rfl hc, fun _ _ => rfl⟩
    · simp only [Except.ok.injEq] at hr
      subst hr
      refine ⟨fun _ => rfl, fun hc hlim => ?_⟩
      rcases List.take_eq_nil_iff.mp hc with hz | hs
      · omega
      · exact absurd (sortDescBy_eq_nil_iff.mp hs) h5
  · intro sina east cache ticker sd ed l
    simp only [ApiEast.get_prices]
    split_ifs with h1 h2 h3 h4 h5 <;> intro hn hr
    · simp at hn
    · simp at hr
    · simp only [Except.ok.injEq] at hr
      subst hr
      exact ⟨fun _ => rfl, fun hc => absurd hc h4⟩
    · simp only [Except.ok.injEq] at hr
      subst hr
      exact ⟨fun hc => absurd hc h4, fun _ => rfl⟩
    · simp only [Except.ok.injEq] at hr
      subst hr
      exact ⟨fun _ => rfl, fun hc => absurd hc h5⟩
    · simp only [Except.ok.injEq] at hr
      subst hr
      exact ⟨fun hc => absurd hc h5, fun _ => rfl⟩
  · intro resp cache ticker ed limit l
    simp only [ApiEast.get_financial_metrics]
    split_ifs with h1 h2 h3 <;> intro hn hr
    · simp at hn
    · simp at hr
    · simp only [Except.ok.injEq] at hr
      subst hr
      exact ⟨fun _ => rfl, fun hc => absurd hc h3⟩
    · simp only [Except.ok.injEq] at hr
      subst hr
      exact ⟨fun hc => absurd hc h3, fun _ => rfl⟩
  · intro env server cache ticker ed sd limit fuel l
    simp only [ApiEast.get_insider_trades]
    split_ifs with h1
    · intro hreq hr
      simp at hreq
    · cases hloop : ApiEast.tradesPages server ticker sd limit
          (pyTruthy env.FINANCIAL_DATASETS_API_KEY) fuel ed [] [] with
      | fuelOut rs => intro hreq hr; simp at hr
      | fail e rs => intro hreq hr; simp at hr
      | done acc rs =>
        intro hreq hr
        dsimp only at hr ⊢
        split_ifs at hr ⊢ with hacc
        · simp only [Option.some.injEq, Except.ok.injEq] at hr
          subst hr
          exact ⟨fun hc => absurd rfl hc, fun _ => rfl⟩
        · simp only [Option.some.injEq, Except.ok.injEq] at hr
          subst hr
          exact ⟨fun _ => rfl, fun hc => absurd hc hacc⟩
  · intro env server cache ticker ed sd limit fuel l
    simp only [ApiEast.get_company_news]
    split_ifs with h1
    · intro hreq hr
      simp at hreq
    · cases hloop : ApiEast.newsPages server ticker sd limit
          (pyTruthy env.FINANCIAL_DATASETS_API_KEY) fuel ed [] [] with
      | fuelOut rs => intro hreq hr; simp at hr
      | fail e rs => intro hreq hr; simp at hr
      | done acc rs =>
        intro hreq hr
        dsimp only at hr ⊢
        split_ifs at hr ⊢ with hacc
        · simp only [Option.some.injEq, Except.ok.injEq] at hr
          subst hr
          exact ⟨fun hc => absurd rfl hc, fun _ => rfl⟩
        · simp only [Option.some.injEq, Except.ok.injEq] at hr
          subst hr
          exact ⟨fun _ => rfl, fun hc => absurd hc hacc⟩
  · intro cache t l t2
    refine ⟨?_, ?_, rfl, rfl, rfl⟩
    · show Function.update cache.prices t l t = l
      exact Function.update_same t l cache.prices
    · intro h
      show Function.update cache.prices t l t2 = cache.prices t2
      exact Function.update_noteq h l cache.prices
  · intro cache t l t2
    refine ⟨?_, ?_, rfl, rfl, rfl⟩
    · show Function.update cache.financial_metrics t l t = l
      exact Function.update_same t l cache.financial_metrics
    · intro h
      show Function.update cache.financial_metrics t l t2 = cache.financial_metrics t2
      exact Function.update_noteq h l cache.financial_metrics
  · intro cache t l t2
    refine ⟨?_, ?_, rfl, rfl, rfl⟩
    · show Function.update cache.insider_trades t l t = l
      exact Function.update_same t l cache.insider_trades
    · intro h
      show Function.update cache.insider_trades t l t2 = cache.insider_trades t2
      exact Function.update_noteq h l cache.insider_trades
  · intro cache t l t2
    refine ⟨?_, ?_, rfl, rfl, rfl⟩
    · show Function.update cache.company_news t l t = l
      exact Function.update_same t l cache.company_news
    · intro h
      show Function.update cache.company_news t l t2 = cache.company_news t2
      exact Function.update_noteq h l cache.company_news

/-- C5 witness: a concrete network fetch with one price writes exactly that
list into the cache entry of the ticker. -/
theorem C5_write_back_policy_witness :
    (Api.get_prices envJ respPrice1 Cache.empty "600000" 1 10).cache =
      Cache.empty.set_prices "600000" [pN] := by
  exact (C5_write_back_policy.1 envJ respPrice1 Cache.empty "600000" 1 10 [pN]
    (by decide) (by rfl)).1 (by simp)

/-- C2 counterexample: the network path of `api_east.get_insider_trades`
returns the accumulated pages as-is — here a single page holding two trades
in ascending date order — with no descending sort (and no truncation). -/
theorem C2_counterexample :
    (ApiEast.get_insider_trades envNoKeys srvTradesAB Cache.empty
        "600000" 10 none 1000 5).result = some (.ok [tA, tB]) ∧
    ¬ SortedDescOn effective_date [tA, tB] := by
  exact ⟨rfl, by decide⟩

/-- C2 (amended): every list `api.get_insider_trades` / `api.get_company_news`
returns is sorted descending by effective date, and on the network path it
is truncated to `limit` (the cache-hit path never truncates);
`get_financial_metrics` (both files) always truncates to `limit` but sorts
only on the cache-hit path; `api_east.get_insider_trades` /
`get_company_news` sort only on the cache-hit path — their network path
returns the accumulated pages unsorted and untruncated (counterexample). -/
theorem C2_sorted_truncated :
    (∀ env resp cache ticker ed sd limit l,
      ((Api.get_insider_trades env resp cache ticker ed sd limit).result = .ok l →
        SortedDescOn effective_date l) ∧
      (1 ≤ (Api.get_insider_trades env resp cache ticker ed sd limit).nreq →
        (Api.get_insider_trades env resp cache ticker ed sd limit).result = .ok l →
        l.length ≤ limit)) ∧
    (∀ env resp cache ticker ed sd limit l,
      ((Api.get_company_news env resp cache ticker ed sd limit).result = .ok l →
        SortedDescOn (fun n => n.date) l) ∧
      (1 ≤ (Api.get_company_news env resp cache ticker ed sd limit).nreq →
        (Api.get_company_news env resp cache ticker ed sd limit).result = .ok l →
        l.length ≤ limit)) ∧
    (∀ env resp cache ticker ed limit l,
      ((Api.get_financial_metrics env resp cache ticker ed limit).result = .ok l →
        l.length ≤ limit) ∧
      ((Api.get_financial_metrics env resp cache ticker ed limit).nreq = 0 →
        (Api.get_financial_metrics env resp cache ticker ed limit).result = .ok l →
        SortedDescOn (fun m => m.report_period) l)) ∧
    (∀ resp cache ticker ed limit l,
      ((ApiEast.get_financial_metrics resp cache ticker ed limit).result = .ok l →
        l.length ≤ limit) ∧
      ((ApiEast.get_financial_metrics resp cache ticker ed limit).nreq = 0 →
        (ApiEast.get_financial_metrics resp cache ticker ed limit).result = .ok l →
        SortedDescOn (fun m => m.report_period) l)) ∧
    (∀ env server cache ticker ed sd limit fuel l,
      (ApiEast.get_insider_trades env server cache ticker ed sd limit fuel).reqs = [] →
      (ApiEast.get_insider_trades env server cache ticker ed sd limit fuel).result =
        some (.ok l) →
      SortedDescOn effective_date l) ∧
    (∀ env server cache ticker ed sd limit fuel l,
      (ApiEast.get_company_news env server cache ticker ed sd limit fuel).reqs = [] →
      (ApiEast.get_company_news env server cache ticker ed sd limit fuel).result =
        some (.ok l) →
      SortedDescOn (fun n => n.date) l) := by
  refine ⟨?_, ?_, ?_, ?_, ?_, ?_⟩
  · intro env resp cache ticker ed sd limit l
    constructor
    · simp only [Api.get_insider_trades]
      split_ifs with h1 h2 h3 h4 h5 <;> intro hr <;>
        simp only [Except.ok.injEq] at hr <;> try subst hr
      · exact sortDescBy_sorted _ _
      · exact List.Pairwise.nil
      · exact sortedDescOn_take (sortDescBy_sorted _ _) _
    · simp only [Api.get_insider_trades]
      split_ifs with h1 h2 h3 h4 h5 <;> intro hn hr
      · simp at hn
      · simp at hn
      · simp at hr
      · simp at hr
      · simp only [Except.ok.injEq] at hr
        subst hr
        simp
      · simp only [Except.ok.injEq] at hr
        subst hr
        exact List.length_take_le _ _
  · intro env resp cache ticker ed sd limit l
    constructor
    · simp only [Api.get_company_news]
      split_ifs with h1 h2 h3 h4 h5 <;> intro hr <;>
        simp only [Except.ok.injEq] at hr <;> try subst hr
      · exact sortDescBy_sorted _ _
      · exact List.Pairwise.nil
      · exact sortedDescOn_take (sortDescBy_sorted _ _) _
    · simp only [Api.get_company_news]
      split_ifs with h1 h2 h3 h4 h5 <;> intro hn hr
      · simp at hn
      · simp at hn
      · simp at hr
      · simp at hr
      · simp only [Except.ok.injEq] at hr
        subst hr
        simp
      · simp only [Except.ok.injEq] at hr
        subst hr
        exact List.length_take_le _ _
  · intro env resp cache ticker ed limit l
    constructor
    · simp only [Api.get_financial_metrics]
      split_ifs with h1 h2 h3 h4 h5 <;> intro hr
      · simp only [Except.ok.injEq] at hr
        subst hr
        exact List.length_take_le _ _
      · simp at hr
      · simp at hr
      · simp at hr
      · simp only [Except.ok.injEq] at hr
        subst hr
        simp
      · simp only [Except.ok.injEq] at hr
        subst hr
        rw [List.length_map]
        exact List.length_take_le _ _
    · simp only [Api.get_financial_metrics]
      split_ifs with h1 h2 h3 h4 h5 <;> intro hn hr
      · simp only [Except.ok.injEq] at hr
        subst hr
        exact sortedDescOn_take (sortDescBy_sorted _ _) _
      · simp at hr
      · simp at hn
      · simp at hn
      · simp at hn
      · simp at hn
  · intro resp cache ticker ed limit l
    constructor
    · simp only [ApiEast.get_financial_metrics]
      split_ifs with h1 h2 h3 <;> intro hr
      · simp only [Except.ok.injEq] at hr
        subst hr
        exact List.length_take_le _ _
      · simp at hr
      · simp only [Except.ok.injEq] at hr
        subst hr
        rw [List.length_map]
        exact List.length_take_le _ _
      · simp only [Except.ok.injEq] at hr
        subst hr
        rw [List.length_map]
        exact List.length_take_le _ _
    · simp only [ApiEast.get_financial_metrics]
      split_ifs with h1 h2 h3 <;> intro hn hr
      · simp only [Except.ok.injEq] at hr
        subst hr
        exact sortedDescOn_take (sortDescBy_sorted _ _) _
      · simp at hr
      · simp at hn
      · simp at hn
  · intro env server cache ticker ed sd limit fuel l hreqs hr
    by_cases h1 : cache.insider_trades ticker ≠ [] ∧ tradesView cache ticker sd ed ≠ []
    · simp only [ApiEast.get_insider_trades] at hr
      rw [if_pos h1] at hr
      simp only [Option.some.injEq, Except.ok.injEq] at hr
      subst hr
      exact sortDescBy_sorted _ _
    · exfalso
      have hv : tradesView cache ticker sd ed = [] := by
        by_contra hvne
        exact h1 ⟨tradesView_ne_nil hvne, hvne⟩
      rcases fuel with _ | f
      · simp only [ApiEast.get_insider_trades] at hr
        rw [if_neg h1] at hr
        simp [ApiEast.tradesPages] at hr
      · obtain ⟨extra, hx⟩ := ApiEast.tradesPages_reqs_head server ticker sd limit
          (pyTruthy env.FINANCIAL_DATASETS_API_KEY) (f + 1) ed [] [] (by omega)
        rw [east_trades_reqs_eq env server cache ticker ed sd limit (f + 1) hv, hx] at hreqs
        simp at hreqs
  · intro env server cache ticker ed sd limit fuel l hreqs hr
    by_cases h1 : cache.company_news ticker ≠ [] ∧ newsView cache ticker sd ed ≠ []
    · simp only [ApiEast.get_company_news] at hr
      rw [if_pos h1] at hr
      simp only [Option.some.injEq, Except.ok.injEq] at hr
      subst hr
      exact sortDescBy_sorted _ _
    · exfalso
      have hv : newsView cache ticker sd ed = [] := by
        by_contra hvne
        exact h1 ⟨newsView_ne_nil hvne, hvne⟩
      rcases fuel with _ | f
      · simp only [ApiEast.get_company_news] at hr
        rw [if_neg h1] at hr
        simp [ApiEast.newsPages] at hr
      · obtain ⟨extra, hx⟩ := ApiEast.newsPages_reqs_head server ticker sd limit
          (pyTruthy env.FINANCIAL_DATASETS_API_KEY) (f + 1) ed [] [] (by omega)
        rw [east_news_reqs_eq env server cache ticker ed sd limit (f + 1) hv, hx] at hreqs
        simp at hreqs

/-- C2 witness: the concrete single-trade network result of
`api.get_insider_trades` is sorted descending. -/
theorem C2_sorted_truncated_witness : SortedDescOn effective_date [twW] :=
  (C2_sorted_truncated.1 envJ respExecW Cache.empty "600000" 10 (some 1) 1000 [twW]).1 rfl

theorem execKeep_inRange {sd : Option Date} {ed : Date} {item : Api.RawJuheExec}
    (h : Api.execKeep sd ed item = true) (ticker : String) :
    tradeInRange sd ed (Api.execToTrade ticker item) = true := by
  have heff : effective_date (Api.execToTrade ticker item) = item.date := rfl
  rcases sd with _ | s <;>
  · simp [Api.execKeep] at h
    simp [tradeInRange, heff]
    exact h

theorem juheNewsKeep_inRange {sd : Option Date} {ed : Date} {item : Api.RawJuheNews}
    (h : Api.juheNewsKeep sd ed item = true) (ticker : String) :
    newsInRange sd ed (Api.juheNewsToNews ticker item) = true := by
  have hd : (Api.juheNewsToNews ticker item).date = item.date := rfl
  rcases sd with _ | s <;>
  · simp [Api.juheNewsKeep] at h
    simp [newsInRange, hd]
    exact h

/-- C3 counterexample: the network path of `api_east.get_company_news`
returns a record dated 100 on a query bounded by `end_date = 50` — no
in-code date filter exists there, the bounds only travel as request
parameters. -/
theorem C3_counterexample :
    (ApiEast.get_company_news envNoKeys srvNewsOut Cache.empty
        "600000" 50 none 1000 5).result = some (.ok [nOut]) ∧
    ¬ nOut.date ≤ 50 := by
  exact ⟨rfl, by decide⟩

/-- C3 (amended): every record returned by `api.get_insider_trades` /
`api.get_company_news` (both paths) and by the cache-hit paths of
`api_east.get_insider_trades` / `get_company_news` has its effective date
inside the inclusive `[start_date, end_date]` bounds; the api_east network
path applies no in-code date filter and can return out-of-range provider
records (counterexample). -/
theorem C3_date_bounds :
    (∀ env resp cache ticker ed sd limit l,
      (Api.get_insider_trades env resp cache ticker ed sd limit).result = .ok l →
      ∀ x ∈ l, tradeInRange sd ed x = true) ∧
    (∀ env resp cache ticker ed sd limit l,
      (Api.get_company_news env resp cache ticker ed sd limit).result = .ok l →
      ∀ x ∈ l, newsInRange sd ed x = true) ∧
    (∀ env server cache ticker ed sd limit fuel l,
      (ApiEast.get_insider_trades env server cache ticker ed sd limit fuel).reqs = [] →
      (ApiEast.get_insider_trades env server cache ticker ed sd limit fuel).result =
        some (.ok l) →
      ∀ x ∈ l, tradeInRange sd ed x = true) ∧
    (∀ env server cache ticker ed sd limit fuel l,
      (ApiEast.get_company_news env server cache ticker ed sd limit fuel).reqs = [] →
      (ApiEast.get_company_news env server cache ticker ed sd limit fuel).result =
        some (.ok l) →
      ∀ x ∈ l, newsInRange sd ed x = true) := by
  refine ⟨?_, ?_, ?_, ?_⟩
  · intro env resp cache ticker ed sd limit l
    simp only [Api.get_insider_trades]
    split_ifs with h1 h2 h3 h4 h5 <;> intro hr
    · simp only [Except.ok.injEq] at hr
      subst hr
      intro x hx
      exact (List.mem_filter.mp (mem_sortDescBy.mp hx)).2
    · simp at hr
    · simp at hr
    · simp at hr
    · simp only [Except.ok.injEq] at hr
      subst hr
      intro x hx
      simp at hx
    · simp only [Except.ok.injEq] at hr
      subst hr
      intro x hx
      have hx2 := mem_sortDescBy.mp (List.mem_of_mem_take hx)
      obtain ⟨item, hitem, rfl⟩ := List.mem_map.mp hx2
      exact execKeep_inRange (List.mem_filter.mp hitem).2 ticker
  · intro env resp cache ticker ed sd limit l
    simp only [Api.get_company_news]
    split_ifs with h1 h2 h3 h4 h5 <;> intro hr
    · simp only [Except.ok.injEq] at hr
      subst hr
      intro x hx
      exact (List.mem_filter.mp (mem_sortDescBy.mp hx)).2
    · simp at hr
    · simp at hr
    · simp at hr
    · simp only [Except.ok.injEq] at hr
      subst hr
      intro x hx
      simp at hx
    · simp only [Except.ok.injEq] at hr
      subst hr
      intro x hx
      have hx2 := mem_sortDescBy.mp (List.mem_of_mem_take hx)
      obtain ⟨item, hitem, rfl⟩ := List.mem_map.mp hx2
      exact juheNewsKeep_inRange (List.mem_filter.mp hitem).2 ticker
  · intro env server cache ticker ed sd limit fuel l hreqs hr
    by_cases h1 : cache.insider_trades ticker ≠ [] ∧ tradesView cache ticker sd ed ≠ []
    · simp only [ApiEast.get_insider_trades] at hr
      rw [if_pos h1] at hr
      simp only [Option.some.injEq, Except.ok.injEq] at hr
      subst hr
      intro x hx
      exact (List.mem_filter.mp (mem_sortDescBy.mp hx)).2
    · exfalso
      have hv : tradesView cache ticker sd ed = [] := by
        by_contra hvne
        exact h1 ⟨tradesView_ne_nil hvne, hvne⟩
      rcases fuel with _ | f
      · simp only [ApiEast.get_insider_trades] at hr
        rw [if_neg h1] at hr
        simp [ApiEast.tradesPages] at hr
      · obtain ⟨extra, hx⟩ := ApiEast.tradesPages_reqs_head server ticker sd limit
          (pyTruthy env.FINANCIAL_DATASETS_API_KEY) (f + 1) ed [] [] (by omega)
        rw [east_trades_reqs_eq env server cache ticker ed sd limit (f + 1) hv, hx] at hreqs
        simp at hreqs
  · intro env server cache ticker ed sd limit fuel l hreqs hr
    by_cases h1 : cache.company_news ticker ≠ [] ∧ newsView cache ticker sd ed ≠ []
    · simp only [ApiEast.get_company_news] at hr
      rw [if_pos h1] at hr
      simp only [Option.some.injEq, Except.ok.injEq] at hr
      subst hr
      intro x hx
      exact (List.mem_filter.mp (mem_sortDescBy.mp hx)).2
    · exfalso
      have hv : newsView cache ticker sd ed = [] := by
        by_contra hvne
        exact h1 ⟨newsView_ne_nil hvne, hvne⟩
      rcases fuel with _ | f
      · simp only [ApiEast.get_company_news] at hr
        rw [if_neg h1] at hr
        simp [ApiEast.newsPages] at hr
      · obtain ⟨extra, hx⟩ := ApiEast.newsPages_reqs_head server ticker sd limit
          (pyTruthy env.FINANCIAL_DATASETS_API_KEY) (f + 1) ed [] [] (by omega)
        rw [east_news_reqs_eq env server cache ticker ed sd limit (f + 1) hv, hx] at hreqs
        simp at hreqs

/-- C3 witness: the concrete trade returned by `api.get_insider_trades` for
the range [1, 10] lies inside the bounds. -/
theorem C3_date_bounds_witness : tradeInRange (some 1) 10 twW = true :=
  C3_date_bounds.1 envJ respExecW Cache.empty "600000" 10 (some 1) 1000 [twW]
    rfl twW (by simp)

/-- C4 counterexample: against a server that answers every cursor with the
same full one-trade page (filing date 5 > start_date 0, page size = limit),
`api_east.get_insider_trades` has not terminated after 30 iterations — the
cursor update `min(filing_date)` never moves, so no bound on the iteration
count exists (see the last conjuncts of the amended theorem). -/
theorem C4_counterexample :
    (ApiEast.get_insider_trades envNoKeys srvTradesConst Cache.empty
        "600000" 5 (some 0) 1 30).result = none := by
  rfl

/-- C4 (amended): an iteration of the trades/news pagination loop continues
exactly when the page is 2xx and non-empty, a `start_date` was given, the
page is full (`limit ≤ length`) and its oldest date is still strictly above
`start_date` — so the loop exits under precisely the four conditions of the
claim (or a transport failure); every request is issued either at the
original `end_date` or at a cursor strictly above `start_date` (no page
older than `start_date` is fetched once the cursor passed it).  But the
iteration count is NOT bounded: a server that repeats a full page whose
oldest date never reaches `start_date` keeps the cursor fixed and the loop
runs forever (final two conjuncts, for any fuel). -/
theorem C4_pagination :
    (∀ (server : Date → ApiEast.TradesPage) (ticker : String) (s : Date)
        (limit : Nat) (hk : Bool) (ced : Date) acc reqs,
      (ApiEast.tradesStep server ticker (some s) limit hk ced acc reqs).isNext = true ↔
        ((server ced).status_code = 200 ∧ (server ced).insider_trades ≠ [] ∧
         limit ≤ (server ced).insider_trades.length ∧
         s < ApiEast.minFiling (server ced).insider_trades)) ∧
    (∀ (server : Date → ApiEast.TradesPage) (ticker : String)
        (limit : Nat) (hk : Bool) (ced : Date) acc reqs,
      (ApiEast.tradesStep server ticker none limit hk ced acc reqs).isNext = false) ∧
    (∀ (server : Date → ApiEast.TradesPage) (ticker : String) (s : Date)
        (limit : Nat) (hk : Bool) (fuel ed : Nat),
      ∀ q ∈ (ApiEast.tradesPages server ticker (some s) limit hk fuel ed [] []).reqs,
        q.cursor = ed ∨ s < q.cursor) ∧
    (∀ (fuel : Nat) acc reqs,
      (ApiEast.tradesPages srvTradesConst "600000" (some 0) 1 false
        fuel 5 acc reqs).isFuelOut = true) ∧
    (∀ (server : Date → ApiEast.NewsPage) (ticker : String) (s : Date)
        (limit : Nat) (hk : Bool) (ced : Date) acc reqs,
      (ApiEast.newsStep server ticker (some s) limit hk ced acc reqs).isNext = true ↔
        ((server ced).status_code = 200 ∧ (server ced).news ≠ [] ∧
         limit ≤ (server ced).news.length ∧
         s < ApiEast.minNewsDate (server ced).news)) ∧
    (∀ (server : Date → ApiEast.NewsPage) (ticker : String)
        (limit : Nat) (hk : Bool) (ced : Date) acc reqs,
      (ApiEast.newsStep server ticker none limit hk ced acc reqs).isNext = false) ∧
    (∀ (server : Date → ApiEast.NewsPage) (ticker : String) (s : Date)
        (limit : Nat) (hk : Bool) (fuel ed : Nat),
      ∀ q ∈ (ApiEast.newsPages server ticker (some s) limit hk fuel ed [] []).reqs,
        q.cursor = ed ∨ s < q.cursor) ∧
    (∀ (fuel : Nat) acc reqs,
      (ApiEast.newsPages srvNewsConst "600000" (some 0) 1 false
        fuel 5 acc reqs).isFuelOut = true) := by
  refine ⟨?_, ?_, ?_, ?_, ?_, ?_, ?_, ?_⟩
  · intro server ticker s limit hk ced acc reqs
    simp only [ApiEast.tradesStep]
    split_ifs with h1 h2 h3 h4
    · simp only [ApiEast.PageStep.isNext, Bool.false_eq_true, false_iff]
      rintro ⟨hst, -, -, -⟩
      exact h1 hst
    · simp only [ApiEast.PageStep.isNext, Bool.false_eq_true, false_iff]
      rintro ⟨-, hne, -, -⟩
      exact hne h2
    · simp only [ApiEast.PageStep.isNext, Bool.false_eq_true, false_iff]
      rintro ⟨-, -, hlim, -⟩
      exact absurd hlim (Nat.not_le.mpr h3)
    · simp only [ApiEast.PageStep.isNext, Bool.false_eq_true, false_iff]
      rintro ⟨-, -, -, hmin⟩
      exact absurd hmin (Nat.not_lt.mpr h4)
    · simp only [ApiEast.PageStep.isNext, true_iff]
      exact ⟨Decidable.not_not.mp h1, h2, Nat.le_of_not_lt h3, Nat.lt_of_not_le h4⟩
  · intro server ticker limit hk ced acc reqs
    simp only [ApiEast.tradesStep]
    split_ifs <;> rfl
  · intro server ticker s limit hk fuel ed
    exact ApiEast.tradesPages_cursor_bound fuel ed [] [] (by simp) (Or.inl rfl)
  · intro fuel
    induction fuel with
    | zero => intro acc reqs; rfl
    | succ f ih =>
      intro acc reqs
      have hstep : ApiEast.tradesPages srvTradesConst "600000" (some 0) 1 false
          (f + 1) 5 acc reqs =
          ApiEast.tradesPages srvTradesConst "600000" (some 0) 1 false
            f 5 (acc ++ [tFix]) (reqs ++ [⟨5, false⟩]) := rfl
      rw [hstep]
      exact ih _ _
  · intro server ticker s limit hk ced acc reqs
    simp only [ApiEast.newsStep]
    split_ifs with h1 h2 h3 h4
    · simp only [ApiEast.PageStep.isNext, Bool.false_eq_true, false_iff]
      rintro ⟨hst, -, -, -⟩
      exact h1 hst
    · simp only [ApiEast.PageStep.isNext, Bool.false_eq_true, false_iff]
      rintro ⟨-, hne, -, -⟩
      exact hne h2
    · simp only [ApiEast.PageStep.isNext, Bool.false_eq_true, false_iff]
      rintro ⟨-, -, hlim, -⟩
      exact absurd hlim (Nat.not_le.mpr h3)
    · simp only [ApiEast.PageStep.isNext, Bool.false_eq_true, false_iff]
      rintro ⟨-, -, -, hmin⟩
      exact absurd hmin (Nat.not_lt.mpr h4)
    · simp only [ApiEast.PageStep.isNext, true_iff]
      exact ⟨Decidable.not_not.mp h1, h2, Nat.le_of_not_lt h3, Nat.lt_of_not_le h4⟩
  · intro server ticker limit hk ced acc reqs
    simp only [ApiEast.newsStep]
    split_ifs <;> rfl
  · intro server ticker s limit hk fuel ed
    exact ApiEast.newsPages_cursor_bound fuel ed [] [] (by simp) (Or.inl rfl)
  · intro fuel
    induction fuel with
    | zero => intro acc reqs; rfl
    | succ f ih =>
      intro acc reqs
      have hstep : ApiEast.newsPages srvNewsConst "600000" (some 0) 1 false
          (f + 1) 5 acc reqs =
          ApiEast.newsPages srvNewsConst "600000" (some 0) 1 false
            f 5 (acc ++ [nFix]) (reqs ++ [⟨5, false⟩]) := rfl
      rw [hstep]
      exact ih _ _

/-- C4 witness: the constant-page loop is still running after 7 concrete
iterations. -/
theorem C4_pagination_witness :
    (ApiEast.tradesPages srvTradesConst "600000" (some 0) 1 false
      7 5 [] []).isFuelOut = true :=
  C4_pagination.2.2.2.1 7 [] []

/-- C6 counterexample: with no `FINANCIAL_DATASETS_API_KEY` in the
environment, `api_east.get_insider_trades` does not fail — it issues the
request without the auth header (`has_key = false`) and returns the
provider's data. -/
theorem C6_counterexample :
    (ApiEast.get_insider_trades envNoKeys srvTradesAB Cache.empty
        "600000" 10 none 1000 5).result = some (.ok [tA, tB]) ∧
    (ApiEast.get_insider_trades envNoKeys srvTradesAB Cache.empty
        "600000" 10 none 1000 5).reqs = [⟨10, false⟩] := by
  exact ⟨rfl, rfl⟩

/-- C6 (amended): the four `api.py` fetchers fail fast with the
missing-credential error, before any network request, when `JUHE_API_KEY` is
unset or empty and the cache cannot answer; the `api_east` fetchers never
require a key — a missing `FINANCIAL_DATASETS_API_KEY` merely omits the auth
header from the issued requests (trades/news), and the prices/metrics paths
read no key at all, proceeding straight to the network. -/
theorem C6_key_handling :
    (∀ env resp cache ticker sd ed,
      pyTruthy env.JUHE_API_KEY = false → pricesView cache ticker sd ed = [] →
      Api.get_prices env resp cache ticker sd ed =
        { result := .error (.missingKey "请在环境变量中设置 JUHE_API_KEY"),
          cache := cache, nreq := 0 }) ∧
    (∀ env resp cache ticker ed limit,
      pyTruthy env.JUHE_API_KEY = false → metricsView cache ticker ed = [] →
      Api.get_financial_metrics env resp cache ticker ed limit =
        { result := .error (.missingKey "请在环境变量中设置 JUHE_API_KEY"),
          cache := cache, nreq := 0 }) ∧
    (∀ env resp cache ticker ed sd limit,
      pyTruthy env.JUHE_API_KEY = false → tradesView cache ticker sd ed = [] →
      Api.get_insider_trades env resp cache ticker ed sd limit =
        { result := .error (.missingKey "请在环境变量中设置 JUHE_API_KEY"),
          cache := cache, nreq := 0 }) ∧
    (∀ env resp cache ticker ed sd limit,
      pyTruthy env.JUHE_API_KEY = false → newsView cache ticker sd ed = [] →
      Api.get_company_news env resp cache ticker ed sd limit =
        { result := .error (.missingKey "请在环境变量中设置 JUHE_API_KEY"),
          cache := cache, nreq := 0 }) ∧
    (∀ env server cache ticker ed sd limit fuel,
      (∀ m, (ApiEast.get_insider_trades env server cache ticker ed sd limit fuel).result ≠
        some (.error (.missingKey m))) ∧
      (tradesView cache ticker sd ed = [] → 1 ≤ fuel →
        ∃ extra, (ApiEast.get_insider_trades env server cache ticker ed sd limit fuel).reqs =
          ⟨ed, pyTruthy env.FINANCIAL_DATASETS_API_KEY⟩ :: extra)) ∧
    (∀ env server cache ticker ed sd limit fuel,
      (∀ m, (ApiEast.get_company_news env server cache ticker ed sd limit fuel).result ≠
        some (.error (.missingKey m))) ∧
      (newsView cache ticker sd ed = [] → 1 ≤ fuel →
        ∃ extra, (ApiEast.get_company_news env server cache ticker ed sd limit fuel).reqs =
          ⟨ed, pyTruthy env.FINANCIAL_DATASETS_API_KEY⟩ :: extra)) ∧
    (∀ sina east cache ticker sd ed,
      (∀ m, (ApiEast.get_prices sina east cache ticker sd ed).result ≠
        .error (.missingKey m)) ∧
      (pricesView cache ticker sd ed = [] →
        1 ≤ (ApiEast.get_prices sina east cache ticker sd ed).nreq)) ∧
    (∀ resp cache ticker ed limit,
      (∀ m, (ApiEast.get_financial_metrics resp cache ticker ed limit).result ≠
        .error (.missingKey m)) ∧
      (metricsView cache ticker ed = [] →
        1 ≤ (ApiEast.get_financial_metrics resp cache ticker ed limit).nreq)) := by
  refine ⟨?_, ?_, ?_, ?_, ?_, ?_, ?_, ?_⟩
  · intro env resp cache ticker sd ed hkey hv
    simp only [Api.get_prices]
    rw [if_neg (fun hc => hc.2 hv), if_pos hkey]
  · intro env resp cache ticker ed limit hkey hv
    simp only [Api.get_financial_metrics]
    rw [if_neg (fun hc => hc.2 hv), if_pos hkey]
  · intro env resp cache ticker ed sd limit hkey hv
    simp only [Api.get_insider_trades]
    rw [if_neg (fun hc => hc.2 hv), if_pos hkey]
  · intro env resp cache ticker ed sd limit hkey hv
    simp only [Api.get_company_news]
    rw [if_neg (fun hc => hc.2 hv), if_pos hkey]
  · intro env server cache ticker ed sd limit fuel
    constructor
    · intro m heq
      by_cases h1 : cache.insider_trades ticker ≠ [] ∧ tradesView cache ticker sd ed ≠ []
      · simp only [ApiEast.get_insider_trades] at heq
        rw [if_pos h1] at heq
        simp at heq
      · simp only [ApiEast.get_insider_trades] at heq
        rw [if_neg h1] at heq
        cases hloop : ApiEast.tradesPages server ticker sd limit
            (pyTruthy env.FINANCIAL_DATASETS_API_KEY) fuel ed [] [] with
        | fuelOut rs => rw [hloop] at heq; simp at heq
        | done acc rs =>
          rw [hloop] at heq
          dsimp only at heq
          split_ifs at heq <;> simp at heq
        | fail e rs =>
          rw [hloop] at heq
          simp only [Option.some.injEq, Except.error.injEq] at heq
          obtain ⟨st, tx, het⟩ := ApiEast.tradesPages_fail_transport hloop
          rw [het] at heq
          simp at heq
    · intro hv hfuel
      obtain ⟨extra, hx⟩ := ApiEast.tradesPages_reqs_head server ticker sd limit
        (pyTruthy env.FINANCIAL_DATASETS_API_KEY) fuel ed [] [] hfuel
      refine ⟨extra, ?_⟩
      rw [east_trades_reqs_eq env server cache ticker ed sd limit fuel hv, hx]
      simp
  · intro env server cache ticker ed sd limit fuel
    constructor
    · intro m heq
      by_cases h1 : cache.company_news ticker ≠ [] ∧ newsView cache ticker sd ed ≠ []
      · simp only [ApiEast.get_company_news] at heq
        rw [if_pos h1] at heq
        simp at heq
      · simp only [ApiEast.get_company_news] at heq
        rw [if_neg h1] at heq
        cases hloop : ApiEast.newsPages server ticker sd limit
            (pyTruthy env.FINANCIAL_DATASETS_API_KEY) fuel ed [] [] with
        | fuelOut rs => rw [hloop] at heq; simp at heq
        | done acc rs =>
          rw [hloop] at heq
          dsimp only at heq
          split_ifs at heq <;> simp at heq
        | fail e rs =>
          rw [hloop] at heq
          simp only [Option.some.injEq, Except.error.injEq] at heq
          obtain ⟨st, tx, het⟩ := ApiEast.newsPages_fail_transport hloop
          rw [het] at heq
          simp at heq
    · intro hv hfuel
      obtain ⟨extra, hx⟩ := ApiEast.newsPages_reqs_head server ticker sd limit
        (pyTruthy env.FINANCIAL_DATASETS_API_KEY) fuel ed [] [] hfuel
      refine ⟨extra, ?_⟩
      rw [east_news_reqs_eq env server cache ticker ed sd limit fuel hv, hx]
      simp
  · intro sina east cache ticker sd ed
    constructor
    · intro m heq
      simp only [ApiEast.get_prices] at heq
      split_ifs at heq <;> simp at heq
    · intro hv
      simp only [ApiEast.get_prices]
      rw [if_neg (fun hc => hc.2 hv)]
      split_ifs <;> simp
  · intro resp cache ticker ed limit
    constructor
    · intro m heq
      simp only [ApiEast.get_financial_metrics] at heq
      split_ifs at heq <;> simp at heq
    · intro hv
      simp only [ApiEast.get_financial_metrics]
      rw [if_neg (fun hc => hc.2 hv)]
      split_ifs <;> simp

/-- C6 witness: a concrete `api.get_prices` call with an empty cache and no
key aborts with the missing-credential error and zero requests. -/
theorem C6_key_handling_witness :
    Api.get_prices envNoKeys respPriceOk Cache.empty "600000" 1 10 =
      { result := .error (.missingKey "请在环境变量中设置 JUHE_API_KEY"),
        cache := Cache.empty, nreq := 0 } :=
  C6_key_handling.1 envNoKeys respPriceOk Cache.empty "600000" 1 10 rfl rfl

/-- C8 counterexample: `api_east.get_prices` with a 500 from the primary
(新浪) provider does not fail — the 东方财富 fallback answers and the call
returns its data after two requests. -/
theorem C8_counterexample :
    (ApiEast.get_prices sina500 east200 Cache.empty "600000" 1 10).result = .ok [pKl] ∧
    (ApiEast.get_prices sina500 east200 Cache.empty "600000" 1 10).nreq = 2 := by
  exact ⟨rfl, rfl⟩

/-- C8 (amended): the `api.py` fetchers and the `api_east` paginated
fetchers fail on a non-2xx response with the error carrying the ticker,
status code and body text, leaving the cache unchanged; `api_east`'s prices
fetcher instead swallows a primary failure and tries the fallback provider —
it fails only when both fail, with a wrapped error carrying the ticker and
the status (not the body), and `api_east`'s metrics fetcher wraps the status
likewise; on every failing path the cache is unchanged. -/
theorem C8_transport_errors :
    (∀ env resp cache ticker sd ed,
      pricesView cache ticker sd ed = [] → pyTruthy env.JUHE_API_KEY = true →
      resp.status_code ≠ 200 →
      Api.get_prices env resp cache ticker sd ed =
        { result := .error (.transport ticker resp.status_code resp.text),
          cache := cache, nreq := 1 }) ∧
    (∀ env resp cache ticker ed limit,
      metricsView cache ticker ed = [] → pyTruthy env.JUHE_API_KEY = true →
      resp.status_code ≠ 200 →
      Api.get_financial_metrics env resp cache ticker ed limit =
        { result := .error (.transport ticker resp.status_code resp.text),
          cache := cache, nreq := 1 }) ∧
    (∀ env resp cache ticker ed sd limit,
      tradesView cache ticker sd ed = [] → pyTruthy env.JUHE_API_KEY = true →
      resp.status_code ≠ 200 →
      Api.get_insider_trades env resp cache ticker ed sd limit =
        { result := .error (.transport ticker resp.status_code resp.text),
          cache := cache, nreq := 1 }) ∧
    (∀ env resp cache ticker ed sd limit,
      newsView cache ticker sd ed = [] → pyTruthy env.JUHE_API_KEY = true →
      resp.status_code ≠ 200 →
      Api.get_company_news env resp cache ticker ed sd limit =
        { result := .error (.transport ticker resp.status_code resp.text),
          cache := cache, nreq := 1 }) ∧
    (∀ env server cache ticker ed sd limit fuel,
      (tradesView cache ticker sd ed = [] → 1 ≤ fuel → (server ed).status_code ≠ 200 →
        (ApiEast.get_insider_trades env server cache ticker ed sd limit fuel).result =
          some (.error (.transport ticker (server ed).status_code (server ed).text)) ∧
        (ApiEast.get_insider_trades env server cache ticker ed sd limit fuel).cache = cache) ∧
      (∀ e, (ApiEast.get_insider_trades env server cache ticker ed sd limit fuel).result =
          some (.error e) →
        (ApiEast.get_insider_trades env server cache ticker ed sd limit fuel).cache = cache)) ∧
    (∀ env server cache ticker ed sd limit fuel,
      (newsView cache ticker sd ed = [] → 1 ≤ fuel → (server ed).status_code ≠ 200 →
        (ApiEast.get_company_news env server cache ticker ed sd limit fuel).result =
          some (.error (.transport ticker (server ed).status_code (server ed).text)) ∧
        (ApiEast.get_company_news env server cache ticker ed sd limit fuel).cache = cache) ∧
      (∀ e, (ApiEast.get_company_news env server cache ticker ed sd limit fuel).result =
          some (.error e) →
        (ApiEast.get_company_news env server cache ticker ed sd limit fuel).cache = cache)) ∧
    (∀ sina east cache ticker sd ed,
      (pricesView cache ticker sd ed = [] → 400 ≤ sina.status_code →
        400 ≤ east.status_code →
        ApiEast.get_prices sina east cache ticker sd ed =
          { result := .error (.wrapped "获取价格数据失败" ticker
              (.httpStatus east.status_code)), cache := cache, nreq := 2 }) ∧
      (pricesView cache ticker sd ed = [] → 400 ≤ sina.status_code →
        ¬ 400 ≤ east.status_code →
        ∃ l, (ApiEast.get_prices sina east cache ticker sd ed).result = .ok l) ∧
      (∀ e, (ApiEast.get_prices sina east cache ticker sd ed).result = .error e →
        (ApiEast.get_prices sina east cache ticker sd ed).cache = cache)) ∧
    (∀ resp cache ticker ed limit,
      (metricsView cache ticker ed = [] → 400 ≤ resp.status_code →
        ApiEast.get_financial_metrics resp cache ticker ed limit =
          { result := .error (.wrapped "获取财务指标失败" ticker
              (.httpStatus resp.status_code)), cache := cache, nreq := 1 }) ∧
      (∀ e, (ApiEast.get_financial_metrics resp cache ticker ed limit).result = .error e →
        (ApiEast.get_financial_metrics resp cache ticker ed limit).cache = cache)) := by
  refine ⟨?_, ?_, ?_, ?_, ?_, ?_, ?_, ?_⟩
  · intro env resp cache ticker sd ed hv hkey hst
    simp only [Api.get_prices]
    rw [if_neg (fun hc => hc.2 hv), if_neg (by simp [hkey]), if_pos hst]
  · intro env resp cache ticker ed limit hv hkey hst
    simp only [Api.get_financial_metrics]
    rw [if_neg (fun hc => hc.2 hv), if_neg (by simp [hkey]), if_pos hst]
  · intro env resp cache ticker ed sd limit hv hkey hst
    simp only [Api.get_insider_trades]
    rw [if_neg (fun hc => hc.2 hv), if_neg (by simp [hkey]), if_pos hst]
  · intro env resp cache ticker ed sd limit hv hkey hst
    simp only [Api.get_company_news]
    rw [if_neg (fun hc => hc.2 hv), if_neg (by simp [hkey]), if_pos hst]
  · intro env server cache ticker ed sd limit fuel
    constructor
    · intro hv hfuel hst
      rcases fuel with _ | f
      · omega
      · have hloop : ApiEast.tradesPages server ticker sd limit
            (pyTruthy env.FINANCIAL_DATASETS_API_KEY) (f + 1) ed [] [] =
            .fail (.transport ticker (server ed).status_code (server ed).text)
              ([] ++ [⟨ed, pyTruthy env.FINANCIAL_DATASETS_API_KEY⟩]) := by
          simp only [ApiEast.tradesPages, ApiEast.tradesStep]
          rw [if_pos hst]
        constructor <;>
        · simp only [ApiEast.get_insider_trades]
          rw [if_neg (fun hc => hc.2 hv), hloop]
    · intro e heq
      by_cases h1 : cache.insider_trades ticker ≠ [] ∧ tradesView cache ticker sd ed ≠ []
      · simp only [ApiEast.get_insider_trades] at heq ⊢
        rw [if_pos h1] at heq
        simp at heq
      · simp only [ApiEast.get_insider_trades] at heq ⊢
        rw [if_neg h1] at heq ⊢
        cases hloop : ApiEast.tradesPages server ticker sd limit
            (pyTruthy env.FINANCIAL_DATASETS_API_KEY) fuel ed [] [] with
        | fuelOut rs =>
          rw [hloop] at heq
        | done acc rs =>
          rw [hloop] at heq
          dsimp only at heq
          split_ifs at heq <;> simp at heq
        | fail e2 rs => rfl
  · intro env server cache ticker ed sd limit fuel
    constructor
    · intro hv hfuel hst
      rcases fuel with _ | f
      · omega
      · have hloop : ApiEast.newsPages server ticker sd limit
            (pyTruthy env.FINANCIAL_DATASETS_API_KEY) (f + 1) ed [] [] =
            .fail (.transport ticker (server ed).status_code (server ed).text)
              ([] ++ [⟨ed, pyTruthy env.FINANCIAL_DATASETS_API_KEY⟩]) := by
          simp only [ApiEast.newsPages, ApiEast.newsStep]
          rw [if_pos hst]
        constructor <;>
        · simp only [ApiEast.get_company_news]
          rw [if_neg (fun hc => hc.2 hv), hloop]
    · intro e heq
      by_cases h1 : cache.company_news ticker ≠ [] ∧ newsView cache ticker sd ed ≠ []
      · simp only [ApiEast.get_company_news] at heq ⊢
        rw [if_pos h1] at heq
        simp at heq
      · simp only [ApiEast.get_company_news] at heq ⊢
        rw [if_neg h1] at heq ⊢
        cases hloop : ApiEast.newsPages server ticker sd limit
            (pyTruthy env.FINANCIAL_DATASETS_API_KEY) fuel ed [] [] with
        | fuelOut rs =>
          rw [hloop] at heq
        | done acc rs =>
          rw [hloop] at heq
          dsimp only at heq
          split_ifs at heq <;> simp at heq
        | fail e2 rs => rfl
  · intro sina east cache ticker sd ed
    refine ⟨?_, ?_, ?_⟩
    · intro hv hsina heast
      simp only [ApiEast.get_prices]
      rw [if_neg (fun hc => hc.2 hv), if_pos hsina, if_pos heast]
    · intro hv hsina heast
      simp only [ApiEast.get_prices]
      rw [if_neg (fun hc => hc.2 hv), if_pos hsina, if_neg heast]
      split_ifs <;> exact ⟨_, rfl⟩
    · intro e heq
      simp only [ApiEast.get_prices] at heq ⊢
      split_ifs at heq ⊢ <;> first | rfl | simp at heq
  · intro resp cache ticker ed limit
    constructor
    · intro hv hst
      simp only [ApiEast.get_financial_metrics]
      rw [if_neg (fun hc => hc.2 hv), if_pos hst]
    · intro e heq
      simp only [ApiEast.get_financial_metrics] at heq ⊢
      split_ifs at heq ⊢ <;> first | rfl | simp at heq

/-- C8 witness: a concrete 500 from the JUHE price endpoint surfaces as a
transport error carrying ticker, status and body, with the cache unchanged. -/
theorem C8_transport_errors_witness :
    Api.get_prices envJ respPrice500 Cache.empty "600000" 1 10 =
      { result := .error (.transport "600000" 500 "boom"),
        cache := Cache.empty, nreq := 1 } :=
  C8_transport_errors.1 envJ respPrice500 Cache.empty "600000" 1 10 rfl rfl
    (by decide)

/-- C9 counterexample: `api_east.get_market_cap` returns the direct quote
endpoint's value (f116 converted to 亿元) even though the latest financial
metrics record has no market cap set — the claim demands `None` whenever
that record's market cap is falsy. -/
theorem C9_counterexample :
    (ApiEast.get_market_cap quoteW finRespE Cache.empty "600000" 20).1 =
      some (200000000 / 100000000 : ℚ) ∧
    (ApiEast.get_financial_metrics finRespE Cache.empty "600000" 20 10).result =
      .ok [mE] ∧
    mE.market_cap = none := by
  exact ⟨rfl, rfl, rfl⟩

/-- C9 (amended): `api.get_market_cap` returns `None` exactly when the
latest metrics record's market cap is falsy and the value itself otherwise
(an empty metrics list raises an IndexError and a failing fetch propagates
its error — not `None`); `api_east.get_market_cap` first tries the direct
quote endpoint and returns its truthy `f116 / 1e8` regardless of the metrics
record, consults the metrics-derived value only when the direct value is
absent or falsy, and smothers every failure into `None`. -/
theorem C9_market_cap :
    (∀ env resp cache ticker ed,
      (∀ m rest,
        (Api.get_financial_metrics env resp cache ticker ed 10).result = .ok (m :: rest) →
        (pyTruthyQ m.market_cap = false →
          (Api.get_market_cap env resp cache ticker ed).1 = .ok none) ∧
        (pyTruthyQ m.market_cap = true →
          (Api.get_market_cap env resp cache ticker ed).1 = .ok m.market_cap)) ∧
      ((Api.get_financial_metrics env resp cache ticker ed 10).result = .ok [] →
        (Api.get_market_cap env resp cache ticker ed).1 = .error .indexError) ∧
      (∀ e, (Api.get_financial_metrics env resp cache ticker ed 10).result = .error e →
        (Api.get_market_cap env resp cache ticker ed).1 = .error e)) ∧
    (∀ quote finResp cache ticker ed,
      (400 ≤ quote.status_code →
        (ApiEast.get_market_cap quote finResp cache ticker ed).1 = none) ∧
      (¬ 400 ≤ quote.status_code → pyTruthyQ quote.f116 = true →
        (ApiEast.get_market_cap quote finResp cache ticker ed).1 =
          quote.f116.map (fun mc => mc / 100000000)) ∧
      (¬ 400 ≤ quote.status_code → pyTruthyQ quote.f116 = false →
        (∀ m rest,
          (ApiEast.get_financial_metrics finResp cache ticker ed 10).result =
            .ok (m :: rest) →
          (pyTruthyQ m.market_cap = true →
            (ApiEast.get_market_cap quote finResp cache ticker ed).1 = m.market_cap) ∧
          (pyTruthyQ m.market_cap = false →
            (ApiEast.get_market_cap quote finResp cache ticker ed).1 = none)) ∧
        ((ApiEast.get_financial_metrics finResp cache ticker ed 10).result = .ok [] →
          (ApiEast.get_market_cap quote finResp cache ticker ed).1 = none) ∧
        (∀ e, (ApiEast.get_financial_metrics finResp cache ticker ed 10).result =
            .error e →
          (ApiEast.get_market_cap quote finResp cache ticker ed).1 = none))) := by
  constructor
  · intro env resp cache ticker ed
    refine ⟨?_, ?_, ?_⟩
    · intro m rest hr
      constructor
      · intro hfalsy
        simp only [Api.get_market_cap, hr]
        rw [if_pos hfalsy]
      · intro htruthy
        simp only [Api.get_market_cap, hr]
        rw [if_neg (by simp [htruthy])]
    · intro hr
      simp only [Api.get_market_cap]
      rw [hr]
    · intro e hr
      simp only [Api.get_market_cap]
      rw [hr]
  · intro quote finResp cache ticker ed
    refine ⟨?_, ?_, ?_⟩
    · intro hst
      simp only [ApiEast.get_market_cap]
      rw [if_pos hst]
    · intro hst htruthy
      simp only [ApiEast.get_market_cap]
      rw [if_neg hst, if_pos htruthy]
    · intro hst hfalsy
      refine ⟨?_, ?_, ?_⟩
      · intro m rest hr
        constructor
        · intro htr
          simp only [ApiEast.get_market_cap, hr]
          rw [if_neg hst, if_neg (by simp [hfalsy]), if_pos htr]
        · intro hfa
          simp only [ApiEast.get_market_cap, hr]
          rw [if_neg hst, if_neg (by simp [hfalsy]), if_neg (by simp [hfa])]
      · intro hr
        simp only [ApiEast.get_market_cap]
        rw [if_neg hst, if_neg (by simp [hfalsy]), hr]
      · intro e hr
        simp only [ApiEast.get_market_cap]
        rw [if_neg hst, if_neg (by simp [hfalsy]), hr]

/-- C9 witness: with a truthy market cap on the latest JUHE metrics record,
`api.get_market_cap` returns that value. -/
theorem C9_market_cap_witness :
    (Api.get_market_cap envJ respFinLate Cache.empty "600000" 30).1 = .ok (some 5) :=
  ((C9_market_cap.1 envJ respFinLate Cache.empty "600000" 30).1 mLate [] rfl).2
    (by decide)

theorem mem_dfColumns_foldl {k : String} :
    ∀ (rs : List (List (String × PdVal))) (cs : List String), k ∈ cs →
      k ∈ rs.foldl
        (fun cs r => cs ++ ((r.map Prod.fst).filter (fun x => !cs.contains x))) cs
  | [], _, h => h
  | _ :: rs, _, h => mem_dfColumns_foldl rs _ (List.mem_append_left _ h)

theorem time_mem_dfColumns (p : Price) (rs : List (List (String × PdVal))) :
    "time" ∈ dfColumns (Price.model_dump p :: rs) := by
  unfold dfColumns
  rw [List.foldl_cons]
  apply mem_dfColumns_foldl
  simp [Price.model_dump]

/-- C10: `prices_to_df` is only defined for a non-empty price list — the
empty list yields a frame with no columns, so reading the "time" column
raises a KeyError instead of producing an empty table; a non-empty list
always succeeds; consequently `get_price_data` for a range whose fetch
returns no prices raises rather than returning an empty table. -/
theorem C10_prices_to_df_empty :
    (∀ ps : List Price,
      (ps = [] → prices_to_df ps = .error (.keyError "time")) ∧
      (ps ≠ [] → ∃ df, prices_to_df ps = .ok df)) ∧
    (∀ env resp cache ticker sd ed,
      (Api.get_prices env resp cache ticker sd ed).result = .ok [] →
      (Api.get_price_data env resp cache ticker sd ed).1 = .error (.keyError "time")) := by
  constructor
  · intro ps
    constructor
    · intro he
      subst he
      rfl
    · intro hne
      rcases ps with _ | ⟨p, rest⟩
      · exact absurd rfl hne
      · have hcond := time_mem_dfColumns p (rest.map Price.model_dump)
        simp only [prices_to_df, List.map_cons, if_pos hcond]
        exact ⟨_, rfl⟩
  · intro env resp cache ticker sd ed hr
    simp only [Api.get_price_data, hr]
    rfl

/-- C10 witness: the empty price list is rejected with the "time" KeyError. -/
theorem C10_prices_to_df_empty_witness :
    prices_to_df [] = .error (.keyError "time") :=
  (C10_prices_to_df_empty.1 []).1 rfl

/-- C7 counterexample: `api.get_financial_metrics`'s network path caches a
record whose report period post-dates the queried `end_date` (the network
path never date-filters); the immediately following identical call filters
it out of the cache, gets an empty view and issues a second network request
— the round trip neither avoids the network nor returns an equivalent list. -/
theorem C7_counterexample :
    (Api.get_financial_metrics envJ respFinLate Cache.empty "600000" 25 10).result =
      .ok [mLate] ∧
    (Api.get_financial_metrics envJ respFinLate Cache.empty "600000" 25 10).nreq = 1 ∧
    (Api.get_financial_metrics envJ respFinLate
        (Api.get_financial_metrics envJ respFinLate Cache.empty "600000" 25 10).cache
        "600000" 25 10).nreq = 1 := by
  exact ⟨rfl, rfl, rfl⟩

/-- C7 (amended): after a non-empty network fetch, an immediately following
identical `api.get_insider_trades` / `api.get_company_news` call is answered
from the cache with exactly the same list and zero requests (whatever the
second response would have been); the same holds for `api.get_prices`
provided every fetched record lies in the queried range (the prices network
path never filters in code).  It fails for `get_financial_metrics`, whose
network path caches an unfiltered, unsorted list: the re-query may reorder,
drop records, or — as in the counterexample — find an empty view and hit the
network again. -/
theorem C7_round_trip :
    (∀ env resp resp2 cache ticker ed sd limit l,
      1 ≤ (Api.get_insider_trades env resp cache ticker ed sd limit).nreq →
      (Api.get_insider_trades env resp cache ticker ed sd limit).result = .ok l →
      l ≠ [] →
      Api.get_insider_trades env resp2
          (Api.get_insider_trades env resp cache ticker ed sd limit).cache
          ticker ed sd limit =
        { result := .ok l,
          cache := (Api.get_insider_trades env resp cache ticker ed sd limit).cache,
          nreq := 0 }) ∧
    (∀ env resp resp2 cache ticker ed sd limit l,
      1 ≤ (Api.get_company_news env resp cache ticker ed sd limit).nreq →
      (Api.get_company_news env resp cache ticker ed sd limit).result = .ok l →
      l ≠ [] →
      Api.get_company_news env resp2
          (Api.get_company_news env resp cache ticker ed sd limit).cache
          ticker ed sd limit =
        { result := .ok l,
          cache := (Api.get_company_news env resp cache ticker ed sd limit).cache,
          nreq := 0 }) ∧
    (∀ env resp resp2 cache ticker sd ed l,
      1 ≤ (Api.get_prices env resp cache ticker sd ed).nreq →
      (Api.get_prices env resp cache ticker sd ed).result = .ok l →
      l ≠ [] →
      (∀ p ∈ l, priceInRange sd ed p = true) →
      Api.get_prices env resp2
          (Api.get_prices env resp cache ticker sd ed).cache ticker sd ed =
        { result := .ok l,
          cache := (Api.get_prices env resp cache ticker sd ed).cache, nreq := 0 }) := by
  refine ⟨?_, ?_, ?_⟩
  · intro env resp resp2 cache ticker ed sd limit l hn hr hne
    obtain ⟨hcache, hmem, hsorted⟩ :
        (Api.get_insider_trades env resp cache ticker ed sd limit).cache =
          cache.set_insider_trades ticker l ∧
        (∀ x ∈ l, tradeInRange sd ed x = true) ∧
        SortedDescOn effective_date l := by
      revert hn hr hne
      simp only [Api.get_insider_trades]
      split_ifs with h1 h2 h3 h4 h5 <;> intro hn hr hne
      · simp at hn
      · simp at hn
      · simp at hr
      · simp at hr
      · simp only [Except.ok.injEq] at hr
        subst hr
        exact absurd rfl hne
      · simp only [Except.ok.injEq] at hr
        subst hr
        refine ⟨rfl, ?_, sortedDescOn_take (sortDescBy_sorted _ _) _⟩
        intro x hx
        have hx2 := mem_sortDescBy.mp (List.mem_of_mem_take hx)
        obtain ⟨item, hitem, rfl⟩ := List.mem_map.mp hx2
        exact execKeep_inRange (List.mem_filter.mp hitem).2 ticker
    rw [hcache]
    have hcached : (cache.set_insider_trades ticker l).insider_trades ticker = l := by
      show Function.update cache.insider_trades ticker l ticker = l
      exact Function.update_same ticker l cache.insider_trades
    have hview : tradesView (cache.set_insider_trades ticker l) ticker sd ed = l := by
      unfold tradesView
      rw [show (cache.set_insider_trades ticker l).insider_trades ticker = l from hcached]
      rw [List.filter_eq_self.mpr hmem, sortDescBy_eq_self hsorted]
    simp only [Api.get_insider_trades]
    rw [if_pos (And.intro (by rw [hcached]; exact hne) (by rw [hview]; exact hne))]
    rw [hview]
  · intro env resp resp2 cache ticker ed sd limit l hn hr hne
    obtain ⟨hcache, hmem, hsorted⟩ :
        (Api.get_company_news env resp cache ticker ed sd limit).cache =
          cache.set_company_news ticker l ∧
        (∀ x ∈ l, newsInRange sd ed x = true) ∧
        SortedDescOn (fun n => n.date) l := by
      revert hn hr hne
      simp only [Api.get_company_news]
      split_ifs with h1 h2 h3 h4 h5 <;> intro hn hr hne
      · simp at hn
      · simp at hn
      · simp at hr
      · simp at hr
      · simp only [Except.ok.injEq] at hr
        subst hr
        exact absurd rfl hne
      · simp only [Except.ok.injEq] at hr
        subst hr
        refine ⟨rfl, ?_, sortedDescOn_take (sortDescBy_sorted _ _) _⟩
        intro x hx
        have hx2 := mem_sortDescBy.mp (List.mem_of_mem_take hx)
        obtain ⟨item, hitem, rfl⟩ := List.mem_map.mp hx2
        exact juheNewsKeep_inRange (List.mem_filter.mp hitem).2 ticker
    rw [hcache]
    have hcached : (cache.set_company_news ticker l).company_news ticker = l := by
      show Function.update cache.company_news ticker l ticker = l
      exact Function.update_same ticker l cache.company_news
    have hview : newsView (cache.set_company_news ticker l) ticker sd ed = l := by
      unfold newsView
      rw [show (cache.set_company_news ticker l).company_news ticker = l from hcached]
      rw [List.filter_eq_self.mpr hmem, sortDescBy_eq_self hsorted]
    simp only [Api.get_company_news]
    rw [if_pos (And.intro (by rw [hcached]; exact hne) (by rw [hview]; exact hne))]
    rw [hview]
  · intro env resp resp2 cache ticker sd ed l hn hr hne hin
    obtain hcache :
        (Api.get_prices env resp cache ticker sd ed).cache =
          cache.set_prices ticker l := by
      revert hn hr hne
      simp only [Api.get_prices]
      split_ifs with h1 h2 h3 h4 h5 <;> intro hn hr hne
      · simp at hn
      · simp at hn
      · simp at hr
      · simp at hr
      · simp only [Except.ok.injEq] at hr
        subst hr
        exact absurd rfl hne
      · simp only [Except.ok.injEq] at hr
        subst hr
        rfl
    rw [hcache]
    have hcached : (cache.set_prices ticker l).prices ticker = l := by
      show Function.update cache.prices ticker l ticker = l
      exact Function.update_same ticker l cache.prices
    have hview : pricesView (cache.set_prices ticker l) ticker sd ed = l := by
      unfold pricesView
      rw [show (cache.set_prices ticker l).prices ticker = l from hcached]
      exact List.filter_eq_self.mpr hin
    simp only [Api.get_prices]
    rw [if_pos (And.intro (by rw [hcached]; exact hne) (by rw [hview]; exact hne))]
    rw [hview]

/-- C7 witness: a concrete non-empty trades fetch followed by the identical
call (against a server that would now answer 500) returns the same single
trade from the cache with zero requests. -/
theorem C7_round_trip_witness :
    Api.get_insider_trades envJ respExec500
        (Api.get_insider_trades envJ respExecW Cache.empty "600000" 10 (some 1) 1000).cache
        "600000" 10 (some 1) 1000 =
      { result := .ok [twW],
        cache := (Api.get_insider_trades envJ respExecW Cache.empty
          "600000" 10 (some 1) 1000).cache,
        nreq := 0 } :=
  C7_round_trip.1 envJ respExecW respExec500 Cache.empty "600000" 10 (some 1) 1000
    [twW] (by decide) rfl (by simp)
